import Mathlib

/-!
# Verification of the RugCheckerX network-analysis core

This file gives a shallow embedding, in Lean 4, of the graph-construction and
risk-scoring engine of the RugCheckerX repository (`network-analyzer.js`,
together with the configuration constants of `config.js`), and proves or
refutes the testable properties stated about it.

Modelling conventions, used throughout:

* JavaScript numbers are modelled as rationals (`ℚ`).  All arithmetic the
  claims depend on (`Math.min`, `Math.max`, comparisons, sums and products of
  decimal constants, clamping) is exact, so `ℚ` is a faithful carrier for it.
  `Math.pow` with fractional exponents and `Math.sqrt` have no exact rational
  meaning; they are modelled as opaque pure functions carried by the
  environment record `Env` (the JS runtime supplies one fixed such function).
* The asynchronous ledger client (`xrpl-service.js`) is an external
  collaborator.  Each endpoint the analyzer calls is a field of `Env`; a
  result of `none` models a rejected promise (a thrown error at the `await`).
  Wall-clock calls (`Date.now()`, `new Date()`, `toLocaleDateString`) are
  likewise pure fields of `Env`.
* JavaScript truthiness on numbers (`x || d` yields `d` when `x` is `0` or
  absent) is modelled by `jsOrQ`.  Object fields that a call site may omit
  are `Option`s.
* `Set` and `Map` objects are modelled by insertion-ordered lists
  (`addToSet`, association lists), matching JS iteration order.
-/

namespace RugX

/-! ## JavaScript numeric and string primitives -/

/-- JS `x || d` for an optional number: `0` and `undefined` are falsy. -/
def jsOrQ (x : Option ℚ) (d : ℚ) : ℚ :=
  match x with
  | none => d
  | some v => if v = 0 then d else v

/-- JS `Math.round`: round half toward positive infinity. -/
def jsRound (q : ℚ) : ℤ := ⌊q + 1/2⌋

/-- JS `parseInt` applied to the decimal rendering of a number:
truncation toward zero. -/
def jsTrunc (q : ℚ) : ℤ := if 0 ≤ q then ⌊q⌋ else ⌈q⌉

/-- JS `%` on numbers: `a - b * trunc (a / b)` (for `b ≠ 0`). -/
def jsMod (a b : ℚ) : ℚ := a - b * (jsTrunc (a / b) : ℚ)

/-- Wrap an integer into the signed 32-bit range, as JS bitwise
operators do (`hash & hash`, `hash << 5`). -/
def toInt32 (n : ℤ) : ℤ := (n + 2 ^ 31) % 2 ^ 32 - 2 ^ 31

/-- Does `pat` occur at the head of `l`? (helper for substring search). -/
def charsLeadWith : List Char → List Char → Bool
  | [], _ => true
  | _ :: _, [] => false
  | a :: as, b :: bs => a == b && charsLeadWith as bs

/-- Does `pat` occur contiguously anywhere in `l`? -/
def charsContain (pat : List Char) : List Char → Bool
  | [] => charsLeadWith pat []
  | l@(_ :: rest) => charsLeadWith pat l || charsContain pat rest

/-- JS `String.prototype.includes`. -/
def jsIncludes (s pat : String) : Bool := charsContain pat.data s.data

/-- JS `String.prototype.endsWith`. -/
def jsEndsWith (s suf : String) : Bool := charsLeadWith suf.data.reverse s.data.reverse

/-- JS `Array.prototype.push`-style ordered-set insertion (`Set.add`). -/
def addToSet (l : List String) (x : String) : List String :=
  if l.contains x then l else l ++ [x]

/-- Update the first element satisfying `p` (JS `find` + in-place mutation). -/
def updateFirst {α : Type} (p : α → Bool) (f : α → α) : List α → List α
  | [] => []
  | a :: as => if p a then f a :: as else a :: updateFirst p f as

/-- Insert `x` into a descending-by-key list, after all strictly greater keys
and after equal keys (the stable position). -/
def insertDescBy {α : Type} (key : α → ℚ) (x : α) : List α → List α
  | [] => [x]
  | y :: ys => if key y < key x then x :: y :: ys else y :: insertDescBy key x ys

/-- Stable descending sort by a rational key: the meaning of the JS idiom
`arr.sort((a, b) => key(b) - key(a))` (V8's `Array.prototype.sort` is
stable). -/
def sortDescBy {α : Type} (key : α → ℚ) : List α → List α
  | [] => []
  | x :: xs => insertDescBy key x (sortDescBy key xs)

/-- Ordered pairs `(l[i], l[j])` with `i < j`, the iteration order of the
nested `for (i) for (j = i+1)` loops. -/
def pairsOf {α : Type} : List α → List (α × α)
  | [] => []
  | x :: xs => xs.map (fun y => (x, y)) ++ pairsOf xs

/-- Association-list lookup (JS `Map.prototype.get`, insertion order kept). -/
def alookup {α : Type} : List (String × α) → String → Option α
  | [], _ => none
  | (k, v) :: rest, key => if k == key then some v else alookup rest key

/-- Association-list update of an existing key (JS mutation through
`Map.prototype.get`). -/
def aupdate {α : Type} (key : String) (f : α → α) : List (String × α) → List (String × α)
  | [] => []
  | (k, v) :: rest => if k == key then (k, f v) :: rest else (k, v) :: aupdate key f rest

/-! ## Configuration (`config.js`) -/

/-- `HIGH_RISK_ADDRESSES` from `config.js`. -/
def HIGH_RISK_ADDRESSES : List String :=
  [ "rHYTJDFrbCU1i2yCENTSEgVFJUMWuFqeQj"
  , "rG5Ro9e3uGEZVCpwYbLe21nVwXXCGXPkTu"
  , "rLpq5RcRzA8FU1yUqEPW4xfsdwon7caQfM"
  , "r3XhydxYWps8EP6xzqs7dEU4DXMjBme95p"
  , "rNxp4h8apvRis6mJf9Sh8C6iRxfrDWN7AV"
  , "rJMwiqzh3agMG6Hqpa93ycy7GSKtT3EqRW"
  , "rnAgPrUpE3sWaNAaFhWdKhTL4uYUw1Cxuz"
  , "rNGkUxPVuXQiUV1Qmam2NoXykdvk7KKuGa"
  , "rQjMyVwfvjhfhnYtK4K26M4FHngPceXq3"
  , "rMzaEaPx5heMcKgoHeR56xC6DNzxqkeDwt"
  , "rEbAAaLMgk58YvNQuV2weyHre6pRwKdKia"
  , "rshibopEBREqsfnjERMzn56qvbvZnTScfh"
  , "rLWbGeF9B7SwJFb1pnAkwzNL6ehVPhF8xg"
  , "rBWpYJhuJWBPAkzJ4kYQqHShSkkF3rgeD"
  , "rsjzmZ4WfonC3pXS52zoCxTYfqfiBgCis1"
  , "rDCuukSk6NQuFEwFXR5vqVkJrQNezS9cZk"
  , "rfa5HrDzTUe3g3UVYQE9y5hgLTRtcrZJvM"
  , "rpNF4938Y8zCrqFP2owDHjMUdpAxMs49JD"
  , "raCWHpJj1FgvtpFZQjFxc5C4FyQ6PAAGrN" ]

/-- `RISK_FACTORS.token.suspicious_name.flags` from `config.js`. -/
def suspiciousNameFlags : List String :=
  ["safe", "moon", "elon", "doge", "shib", "inu", "swap"]

/-- JS `s.toLowerCase()` (ASCII, as the config flags are). -/
def jsToLower (s : String) : String := ⟨s.data.map Char.toLower⟩

/-- JS `s.toUpperCase()` (ASCII, as the severity levels are). -/
def jsToUpper (s : String) : String := ⟨s.data.map Char.toUpper⟩

/-- JS `s.substring(0, n)`. -/
def jsSubstring0 (s : String) (n : ℕ) : String := ⟨s.data.take n⟩

/-- `address.split(':')[0]`: the base address with any source-tag suffix
stripped (the prefix before the first `':'`). -/
def baseAddress (s : String) : String := ⟨s.data.takeWhile (fun c => c != ':')⟩

/-! ## Ledger data shapes (the analyzer's view of `xrpl-service.js` results) -/

/-- A transaction `Amount` (or `LimitAmount` value): either an XRP drops
string (carrying the parsed integer; the analyzer reads it through
`parseInt(x)/1000000` and through `toString()` suffix checks, for which the
canonical decimal rendering is assumed) or an issued-currency object
`{value, currency, issuer}`. -/
inductive JsAmount : Type
  | drops (n : ℤ)
  | token (value : ℚ) (currency : String)
deriving DecidableEq, Repr

/-- A `TrustSet` transaction's `LimitAmount`. -/
structure LimitAmount : Type where
  currency : String
  issuer : Option String
deriving DecidableEq, Repr

/-- The transaction fields the analyzer reads.  `memos` holds the decoded
(`hex → utf8`) memo data of each memo, `none` when absent or undecodable.
`date` is a millisecond timestamp. -/
structure Transaction : Type where
  txType : Option String := none
  account : Option String := none
  destination : Option String := none
  amount : Option JsAmount := none
  limitAmount : Option LimitAmount := none
  memos : List (Option String) := []
  date : Option ℚ := none
  hash : String := ""
deriving DecidableEq, Repr

/-- An issued token as returned by `getIssuedTokens`: `amount` is the
obligations string, carried as its parsed numeric value (`none` models an
absent/empty field, which is falsy). -/
structure Token : Type where
  currency : String
  amount : Option ℚ := none
  issuer : String := ""
deriving DecidableEq, Repr

/-- One trustline row as returned by `getAccountTrustlines`. -/
structure TrustLine : Type where
  currency : String
  account : String
deriving DecidableEq, Repr

/-- The `account_info` fields the analyzer reads.  `sequence` is the
lowercase key read by `_calculateWalletRisk`, `seqCap` the capitalized
`Sequence` key read by `_calculateWalletConnectionRisk`, and `txHistory`
the `Account.TransactionHistory` path probed by the creator-wallet checks;
each is `none` when the data source does not provide that key (`0` is falsy
and is treated as absent by the `if (x)` guards, so it is modelled by the
guards below). -/
structure AccountInfo : Type where
  sequence : Option ℤ := none
  seqCap : Option ℤ := none
  txHistory : Option (List Transaction) := none
deriving DecidableEq, Repr

/-- The environment of one analysis run: the ledger data source endpoints
(`none` = rejected promise), the wall clock, and the opaque numeric/calendar
routines of the JS runtime.  All fields are pure functions, fixed for the
whole run. -/
structure Env : Type where
  isValidAddress : String → Bool
  getAccountInfo : String → Option AccountInfo
  getAccountTransactions : String → ℕ → Option (List Transaction)
  getIssuedTokens : String → Option (List Token)
  fetchTokenFirstTxs : String → String → ℕ → Option (List Transaction)
  fetchEarlyTransactions : String → ℕ → Option (List Transaction)
  fetchRecentTransactions : String → ℕ → Option (List Transaction)
  getAccountTrustlines : String → Option (List TrustLine)
  now : ℚ
  yearOf : ℚ → ℤ
  yearStartMs : ℤ → ℚ
  toLocaleDateString : ℚ → String
  jsPow : ℚ → ℚ → ℚ
  jsSqrt : ℚ → ℚ

/-! ## Graph data model (`networkData`) -/

/-- The enhanced risk assessment produced by `_calculateWalletConnectionRisk`. -/
structure EnhancedRisk : Type where
  activityRisk : ℚ := 0
  ageRisk : ℚ := 0
  transactionVolumeRisk : ℚ := 0
  trustlineRisk : ℚ := 0
  wtype : String := "standard"
  trustlinePosition : ℕ := 0
  earlyConnection : Bool := false
  creatorConnection : Bool := false
  walletAge : ℤ := 0
  suspiciousConnectionsCount : ℕ := 0
deriving DecidableEq, Repr

/-- Per-wallet interaction record built in `_analyzeNodeConnections`
(`patterns` is flattened into the two counters). -/
structure Interaction : Type where
  paymentCount : ℕ := 0
  tokenTransfers : ℕ := 0
  totalValue : ℚ := 0
  firstInteractionTime : ℚ := 0
  frequentSmallPayments : ℕ := 0
  largeOneTimePayments : ℕ := 0
  trustRelationship : Bool := false
deriving DecidableEq, Repr

/-- Result of `_analyzeBuyingPattern`. -/
structure BuyingPattern : Type where
  risk : ℚ
  pattern : String
  summary : Option String := none
deriving DecidableEq, Repr

/-- A node of the network graph.  Fields absent on a given JS node object are
`Option`s (or carry their JS default). -/
structure Node : Type where
  id : String
  ntype : String
  radius : ℚ := 0
  riskLevel : ℚ := 0
  name : Option String := none
  walletType : Option String := none
  highActivity : Bool := false
  potentialEarly : Bool := false
  isHighRisk : Bool := false
  isCreatorWallet : Bool := false
  enhancedRiskData : Option EnhancedRisk := none
  interactionData : Option Interaction := none
  buyingPattern : Option BuyingPattern := none
  earlyParticipant : Bool := false
  earlyTxInfo : Option String := none
  issuer : Option String := none
  issueDate : Option String := none
  holders : Option String := none
  description : Option String := none
  earlyParticipantCount : Option ℕ := none
deriving DecidableEq, Repr

/-- Properties passed to `addNode`.  Absent keys are `none`/`false`. -/
structure NodeProps : Type where
  radius : Option ℚ := none
  riskLevel : Option ℚ := none
  name : Option String := none
  walletType : Option String := none
  highActivity : Bool := false
  potentialEarly : Bool := false
  isHighRisk : Bool := false
  isCreatorWallet : Bool := false
  enhancedRiskData : Option EnhancedRisk := none
  interactionData : Option Interaction := none
  buyingPattern : Option BuyingPattern := none
  earlyParticipant : Bool := false
  earlyTxInfo : Option String := none
  issuer : Option String := none
  issueDate : Option String := none
  holders : Option String := none
  description : Option String := none
deriving DecidableEq, Repr

/-- A link of the network graph.  `_addConnection` stores only `source`,
`target`, `value`, `suspicious` and (when present) `transactionType`; all
other submitted properties are dropped by its object spread. -/
structure Link : Type where
  source : String
  target : String
  value : ℚ
  suspicious : Bool
  transactionType : Option String := none
deriving DecidableEq, Repr

/-- Properties passed to `_addConnection` (the fields it actually reads). -/
structure ConnProps : Type where
  value : Option ℚ := none
  suspicious : Bool := false
  transactionType : Option String := none
deriving DecidableEq, Repr

/-- `this.networkData`. -/
structure NetworkData : Type where
  nodes : List Node := []
  links : List Link := []
  mainNode : Option String := none
deriving DecidableEq, Repr

/-- `this.metrics`. -/
structure Metrics : Type where
  riskScore : ℤ := 0
  connectedWallets : ℕ := 0
  connectedTokens : ℕ := 0
  suspiciousConnections : ℕ := 0
deriving DecidableEq, Repr

/-- The analyzer state mutated by the traversal and scoring passes.
`expandLog` is pure instrumentation (it records, in order, each
`(address, depth)` for which the body of `_analyzeNodeConnections` runs past
its entry guard); no definition reads it. -/
structure CoreState : Type where
  visitedNodes : List String := []
  analyzedTokens : List String := []
  metrics : Metrics := {}
  networkData : NetworkData := {}
  nodeCount : ℕ := 0
  linkCount : ℕ := 0
  totalRisk : ℚ := 0
  expandLog : List (String × ℕ) := []
deriving DecidableEq, Repr

/-! ## Graph Store operations -/

/-- `addNode` (`network-analyzer.js` 687–708): insert if the id is absent;
otherwise merge only the promotable early-participant information
(`earlyParticipant` flag, `earlyTxInfo`, and a radius raised to
`max(old, properties.radius || 10)`), touching nothing else. -/
def addNode (st : CoreState) (id ty : String) (props : NodeProps) : CoreState :=
  if st.networkData.nodes.any (fun n => n.id == id) then
    let merge : Node → Node := fun n =>
      if props.earlyParticipant then
        { n with earlyParticipant := true, earlyTxInfo := props.earlyTxInfo,
                 radius := max n.radius (jsOrQ props.radius 10) }
      else n
    let nodes' := updateFirst (fun n => n.id == id) merge st.networkData.nodes
    { st with networkData := { st.networkData with nodes := nodes' } }
  else
    let fresh : Node :=
      { id := id, ntype := ty,
        radius := (props.radius).getD 0,
        riskLevel := (props.riskLevel).getD 0,
        name := props.name, walletType := props.walletType,
        highActivity := props.highActivity,
        potentialEarly := props.potentialEarly,
        isHighRisk := props.isHighRisk,
        isCreatorWallet := props.isCreatorWallet,
        enhancedRiskData := props.enhancedRiskData,
        interactionData := props.interactionData,
        buyingPattern := props.buyingPattern,
        earlyParticipant := props.earlyParticipant,
        earlyTxInfo := props.earlyTxInfo,
        issuer := props.issuer, issueDate := props.issueDate,
        holders := props.holders, description := props.description }
    { st with
      networkData := { st.networkData with nodes := st.networkData.nodes ++ [fresh] },
      nodeCount := st.nodeCount + 1 }

/-- A link connects the unordered pair `{s, t}` (either orientation). -/
def linkMatches (s t : String) (l : Link) : Bool :=
  (l.source == s && l.target == t) || (l.source == t && l.target == s)

/-- `_addConnection` (`network-analyzer.js` 717–755): no-op unless both
endpoints exist; merge (`value := max`, `suspicious := ||`) into an existing
link between the pair; otherwise append a fresh link and bump the counters. -/
def addConnection (st : CoreState) (s t : String) (props : ConnProps) : CoreState :=
  if ¬ (st.networkData.nodes.any (fun n => n.id == s)) ∨
     ¬ (st.networkData.nodes.any (fun n => n.id == t)) then st
  else if st.networkData.links.any (linkMatches s t) then
    let merge : Link → Link := fun l =>
      { l with value := max l.value (jsOrQ props.value 1),
               suspicious := l.suspicious || props.suspicious }
    let links' := updateFirst (linkMatches s t) merge st.networkData.links
    { st with networkData := { st.networkData with links := links' } }
  else
    let fresh : Link :=
      { source := s, target := t,
        value := jsOrQ props.value 1,
        suspicious := props.suspicious,
        transactionType := props.transactionType }
    { st with
      networkData := { st.networkData with links := st.networkData.links ++ [fresh] },
      linkCount := st.linkCount + 1,
      metrics :=
        if props.suspicious then
          { st.metrics with suspiciousConnections := st.metrics.suspiciousConnections + 1 }
        else st.metrics }

/-! ## Scoring helpers (`network-analyzer.js`) -/

/-- `_normalizeAmount` (1801–1813): drops strings become XRP
(`parseInt(x)/1e6`), issued amounts return their `value` (a zero `value` is
falsy, falling through to the default `1`), absent amounts are `0`. -/
def normalizeAmount : Option JsAmount → ℚ
  | none => 0
  | some (.drops n) => (n : ℚ) / 1000000
  | some (.token v _) => if v ≠ 0 then v else 1

/-- Does the canonical decimal rendering of `v` end in nine `'0'`
characters?  Approximates `amount.toString().endsWith('000000000')` for
amounts rendered in plain decimal: non-integral values end in other digits
and never match a nine-character all-zero suffix. -/
def decimalSuffixZeros (v : ℚ) : Bool :=
  v.den == 1 && v.num % (10 : ℤ) ^ 9 == 0 && v.num ≠ 0

/-- Does the canonical decimal rendering of `v` end in nine `'9'`
characters?  Same approximation as `decimalSuffixZeros`, for nonnegative
integral values. -/
def decimalSuffixNines (v : ℚ) : Bool :=
  v.den == 1 && v.num % (10 : ℤ) ^ 9 == 999999999

/-- `_hasTokenSuspiciousPattern` (873–902): a denylisted substring in the
currency code, an extreme supply, or a synthetic-looking supply suffix. -/
def hasTokenSuspiciousPattern (t : Token) : Bool :=
  (t.currency ≠ "" && suspiciousNameFlags.any (fun f => jsIncludes (jsToLower t.currency) f)) ||
  (match t.amount with
   | some v =>
     v > 1000000000000 || decimalSuffixZeros v || decimalSuffixNines v
   | none => false)

/-- `_calculateTransactionRisk` (1138–1181): large-amount penalty, odd
drops-string suffix penalty (the drops string is its canonical decimal
rendering), and one memo penalty per solicitation-flagged memo; capped at 1. -/
def calculateTransactionRisk (tx : Transaction) : ℚ :=
  let r1 : ℚ :=
    match tx.amount with
    | some _ =>
      let a := normalizeAmount tx.amount
      if a > 10000 then 0.5 * min 1 (a / 10000 - 1) else 0
    | none => 0
  let r2 : ℚ :=
    match tx.amount with
    | some (.drops n) =>
      if jsEndsWith (toString n) "000000" || jsEndsWith (toString n) "999999" then 0.4 else 0
    | _ => 0
  let r3 : ℚ :=
    tx.memos.foldl
      (fun acc m =>
        match m with
        | some s =>
          if jsIncludes s "http" || jsIncludes s "send" ||
             jsIncludes s "receive" || jsIncludes s "claim" then acc + 0.6 else acc
        | none => acc)
      0
  min (r1 + r2 + r3) 1.0

/-- `_normalizeHolderCount` (2117–2146): derive a pseudo holder count string
from the issued amount (always a string amount here, read through
`parseInt(x)/1e6`).  `Math.sqrt` is the runtime's `env.jsSqrt`. -/
def normalizeHolderCount (env : Env) (amount : Option ℚ) : Option String :=
  match amount with
  | none => none
  | some v =>
    let rawAmount : ℚ := (jsTrunc v : ℚ) / 1000000
    if rawAmount > 500000000 then some (toString ⌊min 10000 (env.jsSqrt rawAmount / 10)⌋)
    else if rawAmount > 10000000 then some (toString ⌊min 5000 (env.jsSqrt rawAmount / 5)⌋)
    else if rawAmount > 100000 then some (toString ⌊min 1000 (env.jsSqrt rawAmount / 2)⌋)
    else some (toString ⌊min 500 (max 10 (rawAmount / 100))⌋)

/-- `_estimateIssueDate` (1822–1845): the deterministic hashed pseudo-date
fallback.  The 32-bit string hash is exact; the calendar conversions
(`getFullYear`, `new Date(y,0,1)`, `toLocaleDateString`) are the runtime's
pure `env` functions of the millisecond timestamp. -/
def estimateIssueDate (env : Env) (token : Token) : String :=
  let str := token.currency ++ token.issuer
  let hash : ℤ := str.data.foldl (fun h c => toInt32 (toInt32 (h * 32) - h + (c.toNat : ℤ))) 0
  let currentYear := env.yearOf env.now
  let startOfRange := env.yearStartMs (currentYear - 3)
  let timeRange := env.now - startOfRange
  let timeOffset := jsMod ((|hash| : ℤ) : ℚ) timeRange
  env.toLocaleDateString (startOfRange + timeOffset)

/-- `_analyzeBuyingPattern` (2370–2409).  The argument is the wallet's
interaction record; `none` models a falsy argument (in the analyzer every
discovered connected wallet has a record, so the `|| {}` default the caller
writes is unreachable). -/
def analyzeBuyingPattern (idata : Option Interaction) : BuyingPattern :=
  match idata with
  | none => { risk := 0, pattern := "unknown" }
  | some i =>
    let risk1 : ℚ := 0
    let type1 : String := "normal"
    let (risk2, type2) :=
      if i.frequentSmallPayments > 5 then (risk1 + 0.3, "frequent_small_buys")
      else (risk1, type1)
    let (risk3, type3) :=
      if i.largeOneTimePayments > 1 ∧ i.paymentCount < 5 then (risk2 + 0.4, "whale_pattern")
      else (risk2, type2)
    let (risk4, type4) :=
      if i.tokenTransfers > 0 ∧ i.paymentCount > 0 ∧
         (i.tokenTransfers : ℚ) / (i.paymentCount : ℚ) > 0.8 then
        (risk3 + 0.2, if type3 = "normal" then "token_focused" else type3 ++ "_token_focused")
      else (risk3, type3)
    let (risk5, type5) :=
      if i.trustRelationship ∧ i.paymentCount > 3 ∧ i.totalValue > 500 then
        (risk4 + 0.3, if type4 = "normal" then "rapid_trust_activity" else type4 ++ "_with_trust")
      else (risk4, type4)
    { risk := min risk5 1.0
      pattern := type5
      summary := some (type5 ++ " (" ++ toString (jsRound (risk5 * 100)) ++ "% risk)") }

/-- `_getConnectedAddresses` (1060–1092): counterparties of the last 50
transactions; a fetch failure is caught and yields `[]`. -/
def getConnectedAddresses (env : Env) (address : String) : List String :=
  match env.getAccountTransactions address 50 with
  | none => []
  | some txs =>
    txs.foldl
      (fun acc tx =>
        match tx.txType with
        | none => acc
        | some ty =>
          let acc :=
            match tx.destination with
            | some d => if d ≠ address then addToSet acc d else acc
            | none => acc
          let acc :=
            match tx.account with
            | some a => if a ≠ address then addToSet acc a else acc
            | none => acc
          if ty = "TrustSet" then
            match tx.limitAmount with
            | some la =>
              match la.issuer with
              | some iss => addToSet acc iss
              | none => acc
            | none => acc
          else acc)
      []

/-- Result record of `_checkCreatorHistory`. -/
structure CreatorHistory : Type where
  tokens : List Token := []
  previousRugs : ℕ := 0
  averageTokenLifetime : ℚ := 0
deriving DecidableEq, Repr

/-- `_checkCreatorHistory` (910–1003).  Two facts about the source make the
returned record's interesting fields constant: the per-token analysis calls
`xrplService.getTokenTransactions`, a method the service does not define, so
every per-token promise rejects and is caught to `null` (leaving
`countedTokens = 0`, hence `averageTokenLifetime = 0`); and the
`tokenResults.forEach(result => …)` callback shadows the outer `result`, so
`result.previousRugs++` increments the discarded per-token object, never the
returned record.  `previousRugs` is therefore always `0`. -/
def checkCreatorHistory (env : Env) (address : String) : CreatorHistory :=
  { tokens := (env.getIssuedTokens address).getD [] }

/-- `_calculateTokenRisk` (1101–1130): suspicious-name penalty (added once),
low-supply penalty from `parseFloat(token.amount || 0)`, and a 30%
pass-through of the issuer node's risk (skipped when that risk is `0`,
which is falsy); capped at 1. -/
def calculateTokenRisk (nodes : List Node) (token : Token) (issuer : String) : ℚ :=
  let r1 : ℚ :=
    if token.currency ≠ "" ∧
       suspiciousNameFlags.any (fun f => jsIncludes (jsToLower token.currency) f) then 0.4 else 0
  let amount := (token.amount).getD 0
  let r2 : ℚ := if amount < 10 then 0.8 * (1 - amount / 10) else 0
  let r3 : ℚ :=
    match nodes.find? (fun n => n.id == issuer) with
    | some nd => if nd.riskLevel ≠ 0 then nd.riskLevel * 0.3 else 0
    | none => 0
  min (r1 + r2 + r3) 1.0

/-- The body of `_calculateWalletRisk`'s `try` block (774–860), in the
`Option` error monad: `none` is a thrown error, landing in the catch.  Note
that `RISK_FACTORS.wallet.suspiciousPattern` does not exist in `config.js`,
so the read of `.weight` on line 816 throws a `TypeError` whenever at least
one issued token is suspicious — that path also lands in the catch. -/
def walletRiskTryBody (env : Env) (mainNode : Option String) (address : String) :
    Option ℚ := do
  let info ← env.getAccountInfo address
  let r1 : ℚ :=
    match info.sequence with
    | some n =>
      if n ≠ 0 then
        if n > 60000000 then 0.4 * 0.8
        else if n > 40000000 then 0.4 * 0.4
        else 0
      else 0
    | none => 0
  let txs ← env.getAccountTransactions address 10
  let txCount := txs.length
  let r2 : ℚ := if txCount < 10 then 0.3 * (1 - (txCount : ℚ) / 10) else 0
  let toks ← env.getIssuedTokens address
  let r3 : ℚ :=
    if toks.length > 0 ∧ toks.length > 3 then
      0.5 * min 1 (((toks.length : ℚ) - 3) / 5)
    else 0
  let suspiciousTokens := (toks.filter (fun t => hasTokenSuspiciousPattern t)).length
  if toks.length > 0 ∧ suspiciousTokens > 0 then
    none  -- `RISK_FACTORS.wallet.suspiciousPattern.weight` : TypeError
  else
    let creator := checkCreatorHistory env address
    let r4 : ℚ :=
      if creator.previousRugs > 0 then min 0.5 ((creator.previousRugs : ℚ) * 0.15) else 0
    let connected := getConnectedAddresses env address
    let k := (connected.filter (fun a => HIGH_RISK_ADDRESSES.contains (baseAddress a))).length
    let r5 : ℚ := if 0 < k then min 0.7 ((k : ℚ) * 0.2) else 0
    let r6 : ℚ :=
      match mainNode with
      | some m =>
        if m ≠ "" ∧ m ≠ address then
          match env.getAccountInfo m with
          | some mi =>
            match mi.txHistory with
            | some hist =>
              if hist.any (fun tx => tx.txType == some "AccountSet" && tx.account == some address)
              then 0.4 else 0
            | none => 0
          | none => 0  -- inner catch: warn and continue
        else 0
      | none => 0
    pure (min (r1 + r2 + r3 + r4 + r5 + r6) 1.0)

/-- `_calculateWalletRisk` (763–865): known-high-risk short-circuit to `1.0`,
otherwise the accumulated factors capped at `1.0`, defaulting to the
medium-risk `0.5` when any fetch in the `try` block throws. -/
def calculateWalletRisk (env : Env) (mainNode : Option String) (address : String) : ℚ :=
  if HIGH_RISK_ADDRESSES.contains (baseAddress address) then 1.0
  else
    match walletRiskTryBody env mainNode address with
    | some r => r
    | none => 0.5

/-- Sum of consecutive differences of a (descending) timestamp list, each
converted to hours — the loop of lines 2224–2227. -/
def sumConsecDiffHours : List ℚ → ℚ
  | a :: b :: rest => (a - b) / 3600000 + sumConsecDiffHours (b :: rest)
  | _ => 0

/-- The per-token trustline-position loop of `_calculateWalletConnectionRisk`
(2287–2340), with its `break` on the first token for which the wallet holds
a trustline position. -/
def trustlineLoop (env : Env) (m address : String) (mainLines : List TrustLine) :
    List Token → EnhancedRisk → EnhancedRisk
  | [], r => r
  | token :: rest, r =>
    let tokenLines := mainLines.filter (fun l => l.currency == token.currency)
    match tokenLines.findIdx? (fun l => l.account == address) with
    | none => trustlineLoop env m address mainLines rest r
    | some position =>
      let r := { r with trustlinePosition := position + 1 }
      let r :=
        if position < 5 then { r with trustlineRisk := 0.8, earlyConnection := true }
        else if position < 20 then { r with trustlineRisk := 0.6, earlyConnection := true }
        else if position < 100 then { r with trustlineRisk := 0.4 }
        else { r with trustlineRisk := 0.2 }
      if position < 5 then
        match env.fetchEarlyTransactions m 20 with
        | some mainTxs =>
          if mainTxs.any (fun tx => tx.destination == some address || tx.account == some address)
          then { r with creatorConnection := true }
          else r
        | none => r  -- inner catch
      else r

/-- `_calculateWalletConnectionRisk` (2154–2362): the enhanced sub-scores.
Every fallible fetch is wrapped in its own inner `try`, so the outer catch is
unreachable; a `none` from an endpoint skips (or defaults) just its section. -/
def calculateWalletConnectionRisk (env : Env) (mainNode : Option String) (address : String) :
    EnhancedRisk :=
  let r : EnhancedRisk := {}
  -- age section (2170–2208)
  let r :=
    match env.getAccountInfo address with
    | none => { r with ageRisk := 0.5 }
    | some info =>
      match info.seqCap with
      | some n =>
        if n ≠ 0 then
          let ar : ℚ × String :=
            if n < 100 then (0.1, "established")
            else if n < 1000 then (0.3, "established")
            else if n < 10000 then (0.5, "standard")
            else (0.8, "new")
          let walletAge : ℤ :=
            match env.fetchEarlyTransactions address 1 with
            | some (tx :: _) =>
              match tx.date with
              | some d => ⌊(env.now - d) / 86400000⌋
              | none => 0
            | _ => 0
          { r with ageRisk := ar.1, wtype := ar.2, walletAge := walletAge }
        else r
      | none => r
  -- activity section (2211–2275)
  let r :=
    match env.fetchRecentTransactions address 50 with
    | none => { r with activityRisk := 0.5 }
    | some [] => r
    | some txs =>
      let timestamps := sortDescBy (fun x => x) (txs.filterMap (fun tx => tx.date))
      let r :=
        if timestamps.length ≥ 2 then
          let avg := sumConsecDiffHours timestamps / ((timestamps.length : ℚ) - 1)
          if avg < 1 then { r with activityRisk := 0.9, wtype := "high-activity" }
          else if avg < 24 then { r with activityRisk := 0.7, wtype := "active" }
          else if avg < 168 then { r with activityRisk := 0.4 }
          else { r with activityRisk := 0.2, wtype := "inactive" }
        else r
      let totalVolume :=
        txs.foldl
          (fun acc tx =>
            match tx.amount with
            | some _ => acc + normalizeAmount tx.amount
            | none => acc)
          (0 : ℚ)
      let r :=
        { r with transactionVolumeRisk :=
            if totalVolume > 100000 then 0.8
            else if totalVolume > 10000 then 0.6
            else if totalVolume > 1000 then 0.4
            else 0.2 }
      { r with suspiciousConnectionsCount :=
          (txs.filter (fun tx => calculateTransactionRisk tx > 0.7)).length }
  -- trustline section (2278–2344): a `null` main node makes the service call
  -- reject, which the section's `try` catches.
  match mainNode with
  | none => r
  | some m =>
    match env.getAccountTrustlines m, env.getIssuedTokens m with
    | some mainLines, some mainToks =>
      if mainToks.length > 0 then trustlineLoop env m address mainLines mainToks r else r
    | _, _ => r

/-! ## Traversal engine -/

/-- Accumulator of the transaction loop of `_analyzeNodeConnections`
(221–306): the evolving state plus the `connectedWallets` ordered set and
the `walletInteractions` map. -/
structure TxScanAcc : Type where
  st : CoreState
  connectedWallets : List String := []
  walletInteractions : List (String × Interaction) := []

/-- One iteration of the transaction loop (221–306). -/
def txScanStep (env : Env) (addr : String) (acc : TxScanAcc) (tx : Transaction) : TxScanAcc :=
  match tx.txType with
  | none => acc  -- `if (!tx || !tx.TransactionType) continue`
  | some ty =>
    let txRisk := calculateTransactionRisk tx
    if ty = "Payment" then
      match tx.destination with
      | some dest =>
        if dest = "" then acc
        else if acc.st.visitedNodes.contains dest then acc
        else
          let connectedWallets := addToSet acc.connectedWallets dest
          let st := addConnection acc.st addr dest
            { value := some (if tx.amount.isSome then normalizeAmount tx.amount else 1),
              suspicious := decide (txRisk > 0.7),
              transactionType := some "Payment" }
          let wi :=
            match alookup acc.walletInteractions dest with
            | none =>
              acc.walletInteractions ++ [(dest, { firstInteractionTime := jsOrQ tx.date env.now })]
            | some _ => acc.walletInteractions
          let txAmount := normalizeAmount tx.amount
          let isTokenTransfer :=
            match tx.amount with
            | some (.token _ c) => c != ""
            | _ => false
          let wi := aupdate dest
            (fun i =>
              let i := { i with paymentCount := i.paymentCount + 1 }
              let i :=
                if isTokenTransfer then { i with tokenTransfers := i.tokenTransfers + 1 } else i
              let i := { i with totalValue := i.totalValue + txAmount }
              if txAmount < 100 then
                { i with frequentSmallPayments := i.frequentSmallPayments + 1 }
              else if txAmount > 1000 then
                { i with largeOneTimePayments := i.largeOneTimePayments + 1 }
              else i)
            wi
          { st := st, connectedWallets := connectedWallets, walletInteractions := wi }
      | none => acc
    else if ty = "TrustSet" then
      match tx.limitAmount with
      | some la =>
        match la.issuer with
        | some iss =>
          if iss ≠ "" ∧ ¬ acc.st.visitedNodes.contains iss then
            let connectedWallets := addToSet acc.connectedWallets iss
            let st := addConnection acc.st addr iss
              { value := some 3,
                suspicious := decide (txRisk > 0.5),
                transactionType := some "TrustSet" }
            let wi :=
              match alookup acc.walletInteractions iss with
              | none =>
                acc.walletInteractions ++
                  [(iss, { firstInteractionTime := jsOrQ tx.date env.now,
                           trustRelationship := true })]
              | some _ => aupdate iss (fun i => { i with trustRelationship := true })
                  acc.walletInteractions
            { st := st, connectedWallets := connectedWallets, walletInteractions := wi }
          else acc
        | none => acc
      | none => acc
    else acc

/-- Body of the per-token step of `_analyzeTokenConnections` (383–428). -/
def tokenConnStep (env : Env) (addr : String) (st : CoreState) (token : Token) : CoreState :=
  let tokenId := token.currency ++ "-" ++ addr
  if st.analyzedTokens.contains tokenId then st
  else
    let st := { st with analyzedTokens := st.analyzedTokens ++ [tokenId] }
    let tokenRisk := calculateTokenRisk st.networkData.nodes token addr
    let issueDate : Option ℚ :=
      match env.fetchTokenFirstTxs addr token.currency 1 with
      | none => none  -- catch: fallback
      | some [] => none
      | some (t :: _) =>
        match t.date with
        | none => none
        | some d => if env.yearOf d < 2012 ∨ d > env.now then none else some d
    let st := addNode st tokenId "token"
      { name := some token.currency, radius := some 10, riskLevel := some tokenRisk,
        issuer := some addr,
        issueDate := some
          (match issueDate with
           | some d => env.toLocaleDateString d
           | none => estimateIssueDate env token),
        holders := some ((normalizeHolderCount env token.amount).getD "Unknown"),
        description := some (token.currency ++ " token issued by " ++ jsSubstring0 addr 8 ++ "...") }
    -- the `type: 'issuance'` property is not among the keys `_addConnection`
    -- stores, so the link carries no `transactionType`
    addConnection st addr tokenId { value := some 5, suspicious := decide (tokenRisk > 0.7) }

/-- `_analyzeTokenConnections` (374–432): discover tokens issued by `addr`
and add one token node (plus an issuance link) per token, without any
`maxNodes` check.  A fetch failure is caught and leaves the state as is. -/
def analyzeTokenConnections (env : Env) (addr : String) (st : CoreState) : CoreState :=
  match env.getIssuedTokens addr with
  | none => st
  | some tokens =>
    let st := { st with metrics :=
        { st.metrics with connectedTokens := st.metrics.connectedTokens + tokens.length } }
    tokens.foldl (tokenConnStep env addr) st

/-- The high-risk test used by the enrichment passes:
`node.isHighRisk || HIGH_RISK_ADDRESSES.includes(node.id.split(':')[0])`. -/
def isHighRiskNode (n : Node) : Bool :=
  n.isHighRisk || HIGH_RISK_ADDRESSES.contains (baseAddress n.id)

/-- `_connectRelatedWallets` (2479–2612): link wallets with similar first
-interaction timing or identical buying-pattern classification, link early
participants pairwise, and link wallets that interacted with the same token.
The `walletInteractionMap` built at 2494–2501 is never read (dead code).
Links appended during the shared-token pass are not revisited by its
`forEach`, so that pass runs over the snapshot taken at its start. -/
def connectRelatedWallets (st : CoreState) : CoreState :=
  let mainNode := st.networkData.mainNode
  let wallets := st.networkData.nodes.filter
    (fun n => n.ntype == "wallet" &&
      (match mainNode with | some m => n.id ≠ m | none => true))
  if wallets.length < 2 then st
  else
    let st := (pairsOf wallets).foldl
      (fun st p =>
        match p.1.interactionData, p.2.interactionData with
        | some i1, some i2 =>
          if isHighRiskNode p.1 && isHighRiskNode p.2 then st
          else
            let timeDiffHours := |i1.firstInteractionTime - i2.firstInteractionTime| / 3600000
            let similarTiming := decide (timeDiffHours < 24)
            let similarPatterns :=
              match p.1.buyingPattern, p.2.buyingPattern with
              | some b1, some b2 => b1.pattern == b2.pattern
              | _, _ => false
            if similarTiming || similarPatterns then
              addConnection st p.1.id p.2.id
                { value := some 1.5, suspicious := false,
                  transactionType := some "RelatedWallets" }
            else st
        | _, _ => st)
      st
    let eps := wallets.filter (fun n => n.earlyParticipant)
    let st := (pairsOf eps).foldl
      (fun st p =>
        addConnection st p.1.id p.2.id
          { value := some 1.5,
            suspicious := decide (p.1.riskLevel > 0.6) || decide (p.2.riskLevel > 0.6),
            transactionType := some "EarlyParticipants" })
      st
    let linkSnapshot := st.networkData.links
    let nodesSnapshot := st.networkData.nodes
    let tokenConns : List (String × List String) :=
      linkSnapshot.foldl
        (fun acc l =>
          match nodesSnapshot.find? (fun n => n.id == l.source),
                nodesSnapshot.find? (fun n => n.id == l.target) with
          | some sn, some tn =>
            if sn.ntype == "wallet" && tn.ntype == "token" then
              match alookup acc tn.id with
              | some _ => aupdate tn.id (fun ws => ws ++ [sn.id]) acc
              | none => acc ++ [(tn.id, [sn.id])]
            else if sn.ntype == "token" && tn.ntype == "wallet" then
              match alookup acc sn.id with
              | some _ => aupdate sn.id (fun ws => ws ++ [tn.id]) acc
              | none => acc ++ [(sn.id, [tn.id])]
            else acc
          | _, _ => acc)
        []
    tokenConns.foldl
      (fun st p =>
        if p.2.length ≥ 2 then
          (pairsOf p.2).foldl
            (fun st q =>
              let isMain :=
                match mainNode with
                | some m => q.1 == m || q.2 == m
                | none => false
              if isMain then st
              else addConnection st q.1 q.2
                { value := some 1, suspicious := false,
                  transactionType := some "SharedToken" })
            st
        else st)
      st

/-- `_connectHighRiskWallets` (2416–2472): pairwise-link every high-risk
wallet (skipping everything, including `_connectRelatedWallets`, when fewer
than two are present), link each high-risk wallet to the main node when no
link exists yet, then run the related-wallets enrichment.  The
`highRiskConnection: true` property is dropped by `_addConnection`'s spread
(see `Link`). -/
def connectHighRiskWallets (st : CoreState) : CoreState :=
  let hrs := st.networkData.nodes.filter
    (fun n => n.ntype == "wallet" && isHighRiskNode n)
  if hrs.length < 2 then st
  else
    let st := (pairsOf hrs).foldl
      (fun st p =>
        addConnection st p.1.id p.2.id
          { value := some 2, suspicious := true,
            transactionType := some "HighRiskConnection" })
      st
    let st := hrs.foldl
      (fun st w =>
        match st.networkData.mainNode with
        | none => st  -- `_addConnection(null, …)` is a no-op
        | some m =>
          if w.id ≠ m then
            if st.networkData.links.any
                (fun l => (l.source == w.id && l.target == m) ||
                          (l.target == w.id && l.source == m)) then st
            else addConnection st m w.id
              { value := some 3, suspicious := true,
                transactionType := some "HighRiskMainConnection" }
          else st)
      st
    connectRelatedWallets st

/-- One iteration of the connected-wallet loop of `_analyzeNodeConnections`
(317–357): guard on the visited set and the node budget, score the wallet,
upsert its node, and (below the risk-0.8 policy threshold) expand it through
`recur`, the recursive `_analyzeNodeConnections` call at the next depth. -/
def walletStep (env : Env) (maxNodes : ℚ) (recur : String → CoreState → CoreState)
    (interactions : List (String × Interaction)) (isCreatorWallet : Bool)
    (st : CoreState) (w : String) : CoreState :=
  if ¬ st.visitedNodes.contains w ∧ (st.nodeCount : ℚ) < maxNodes then
    let enhancedRisk := calculateWalletConnectionRisk env st.networkData.mainNode w
    let initialRisk := calculateWalletRisk env st.networkData.mainNode w
    let interactionData := alookup interactions w
    let isHighRisk := HIGH_RISK_ADDRESSES.contains (baseAddress w)
    let walletType :=
      if isHighRisk then "high-risk"
      else if enhancedRisk.wtype ≠ "" then enhancedRisk.wtype
      else "standard"
    let st := addNode st w "wallet"
      { radius := some (if isHighRisk then 12 else 8 + initialRisk * 2),
        riskLevel := some (if isHighRisk then 1.0 else initialRisk),
        walletType := some walletType,
        highActivity := decide (enhancedRisk.activityRisk > 0.6),
        potentialEarly :=
          decide (enhancedRisk.ageRisk < 0.3) && decide (initialRisk > 0.5),
        isHighRisk := isHighRisk,
        isCreatorWallet := isCreatorWallet,
        enhancedRiskData := some enhancedRisk,
        interactionData := interactionData,
        buyingPattern := some (analyzeBuyingPattern interactionData) }
    if initialRisk < 0.8 then recur w st else st
  else st

/-- `_analyzeNodeConnections` (175–367), the recursive expansion.  The
`fuel` argument only bounds the recursion depth so that the definition is
structural; the run supplies `⌈maxDepth⌉ + 1`, which the explicit
`depth ≥ maxDepth` entry guard (the guard the source relies on) never
exhausts.  `expandLog` records each `(address, depth)` whose body runs past
the entry guard.  The `isHighRiskWallet` flag computed at 212–219 is never
read afterwards and is omitted. -/
def analyzeNodeConnections (env : Env) (maxDepth maxNodes : ℚ) :
    ℕ → String → ℕ → CoreState → CoreState
  | 0, _, _, st => st
  | fuel + 1, addr, depth, st =>
    if (depth : ℚ) ≥ maxDepth ∨ (st.nodeCount : ℚ) ≥ maxNodes then st
    else
      let st := { st with visitedNodes := addToSet st.visitedNodes addr,
                          expandLog := st.expandLog ++ [(addr, depth)] }
      match env.getAccountTransactions addr 20 with
      | none => st  -- catch: continue with other nodes
      | some transactions =>
        let isCreatorWallet : Bool :=
          if depth = 1 then
            match st.networkData.mainNode with
            | none => false  -- the fetch on `null` rejects; caught by the inner catch
            | some m =>
              match env.getAccountInfo m with
              | some mi =>
                match mi.txHistory with
                | some hist =>
                  hist.any (fun tx =>
                    tx.txType == some "AccountSet" && tx.account == some addr)
                | none => false
              | none => false
          else false
        let scan := transactions.foldl (txScanStep env addr)
          { st := st, connectedWallets := [], walletInteractions := [] }
        let st := analyzeTokenConnections env addr scan.st
        let st := { st with metrics :=
            { st.metrics with connectedWallets :=
                st.metrics.connectedWallets + scan.connectedWallets.length } }
        let nextDepth := depth + 1
        let st :=
          if (nextDepth : ℚ) < maxDepth then
            scan.connectedWallets.foldl
              (walletStep env maxNodes
                (fun w st => analyzeNodeConnections env maxDepth maxNodes fuel w nextDepth st)
                scan.walletInteractions isCreatorWallet)
              st
          else st
        connectHighRiskWallets st

/-- The banded early-participant risk schedule (506–521); positions come
from the first 50 token transactions. -/
def earlyBandRisk (position : ℕ) : ℚ :=
  if position < 10 then 0.7 - (position : ℚ) * 0.01
  else if position < 20 then 0.6 - ((position : ℚ) - 10) * 0.01
  else if position < 30 then 0.5 - ((position : ℚ) - 20) * 0.01
  else 0.4 - ((position : ℚ) - 30) * 0.002

/-- The banded early-participant description strings (509–521). -/
def earlyBandInfo (position : ℕ) : String :=
  if position < 10 then "Very early participant (position " ++ toString (position + 1) ++ ")"
  else if position < 20 then "Early participant (position " ++ toString (position + 1) ++ ")"
  else if position < 30 then "Early-mid participant (position " ++ toString (position + 1) ++ ")"
  else "Mid-early participant (position " ++ toString (position + 1) ++ ")"

/-- The token-relatedness filter of `_identifyEarlyParticipants` (456–470). -/
def isTokenRelatedTx (currency : String) (tx : Transaction) : Bool :=
  match tx.txType with
  | none => false
  | some ty =>
    if ty = "Payment" then
      match tx.amount with
      | some (.token _ c) => c == currency
      | _ => false
    else if ty = "TrustSet" then
      match tx.limitAmount with
      | some la => la.currency == currency
      | none => false
    else false

/-- The participants of one transaction, excluding the analyzed address
(481–484): `[Account, Destination].filter(p => p)`. -/
def participantsOfTx (addr : String) (tx : Transaction) : List String :=
  (match tx.account with
   | some a => if a ≠ addr then [a] else []
   | none => []) ++
  (match tx.destination with
   | some d => if d ≠ addr then [d] else []
   | none => [])

/-- The `earlyParticipants` set and `participantPositions` first-appearance
map (474–494). -/
def collectParticipants (addr : String) (txs : List Transaction) :
    List String × List (String × ℕ) :=
  txs.enum.foldl
    (fun acc p =>
      (participantsOfTx addr p.2).foldl
        (fun acc part =>
          ( addToSet acc.1 part,
            match alookup acc.2 part with
            | none => acc.2 ++ [(part, p.1)]
            | some _ => acc.2 ))
        acc)
    ([], [])

/-- The per-participant body of `_identifyEarlyParticipants` (497–537):
banded risk from the first-appearance position, node upsert, and the
early-token link (whose `earlyParticipant: true` property `_addConnection`
drops). -/
def epParticipantStep (tokenId : String) (earlyTxCount : ℕ)
    (positions : List (String × ℕ)) (st : CoreState) (participant : String) : CoreState :=
  let position := (alookup positions participant).getD 0
  let riskLevel := earlyBandRisk position
  let st := addNode st participant "wallet"
    { earlyParticipant := true,
      radius := some (7 + riskLevel * 4),
      riskLevel := some riskLevel,
      earlyTxInfo := some (earlyBandInfo position) }
  addConnection st participant tokenId
    { value := some (2 + (1 - (position : ℚ) / (earlyTxCount : ℚ)) * 3),
      transactionType := some "EarlyToken" }

/-- Record the early-participant count on the (first) token node (539–540). -/
def setEarlyParticipantCount (tokenId : String) (c : ℕ) (nodes : List Node) : List Node :=
  updateFirst (fun n => n.id == tokenId)
    (fun n => { n with earlyParticipantCount := some c }) nodes

/-- The per-token loop of `_identifyEarlyParticipants` (446–541).  A missing
token node `continue`s; a failed `fetchEarlyTransactions` throws into the
function's catch, aborting the remaining tokens with all prior mutations
kept. -/
def epTokenLoop (env : Env) (addr : String) : List Token → CoreState → CoreState
  | [], st => st
  | token :: rest, st =>
    let tokenId := token.currency ++ "-" ++ addr
    if ¬ st.networkData.nodes.any (fun n => n.id == tokenId) then
      epTokenLoop env addr rest st
    else
      match env.fetchEarlyTransactions addr 100 with
      | none => st
      | some transactions =>
        let tokenTxs := transactions.filter (isTokenRelatedTx token.currency)
        let earlyTxs := tokenTxs.take 50
        let cp := collectParticipants addr earlyTxs
        let st := cp.1.foldl (epParticipantStep tokenId earlyTxs.length cp.2) st
        let st := { st with networkData :=
            { st.networkData with nodes :=
                setEarlyParticipantCount tokenId cp.1.length st.networkData.nodes } }
        epTokenLoop env addr rest st

/-- `_identifyEarlyParticipants` (440–545). -/
def identifyEarlyParticipants (env : Env) (addr : String) (st : CoreState) : CoreState :=
  match env.getIssuedTokens addr with
  | none => st
  | some tokens => epTokenLoop env addr tokens st

/-! ## Final risk aggregation (`_calculateFinalRisk`, 1187–1365) -/

/-- The per-wallet aggregation of the first pass (1226–1269): base risk plus
trust-position, creator-connection, enhanced sub-score, suspicious-connection
and early-participant bonuses, the known-high-risk override to `1.0`, then
the clamp to `[0, 1]`. -/
def finalizeWalletRisk (n : Node) : ℚ :=
  let baseRisk := n.riskLevel  -- `node.riskLevel || 0`
  let baseRisk :=
    match n.enhancedRiskData with
    | some e =>
      let b := baseRisk
      let b := if e.trustlinePosition > 0 ∧ e.trustlinePosition < 10 then b + 0.2 else b
      let b := if e.creatorConnection then b + 0.3 else b
      b + e.activityRisk * 0.15 + e.ageRisk * 0.15 +
        e.transactionVolumeRisk * 0.1 + e.trustlineRisk * 0.2
    | none => baseRisk
  let baseRisk :=
    match n.enhancedRiskData with
    | some e => if e.suspiciousConnectionsCount > 3 then baseRisk + 0.25 else baseRisk
    | none => baseRisk
  let baseRisk := if n.earlyParticipant then baseRisk + 0.15 else baseRisk
  let baseRisk := if isHighRiskNode n then 1.0 else baseRisk
  min (max baseRisk 0) 1

/-- First-pass update of one node: wallets get their aggregated clamped
risk, other nodes are untouched. -/
def pass1Node (n : Node) : Node :=
  if n.ntype == "wallet" then { n with riskLevel := finalizeWalletRisk n } else n

/-- First-pass contribution of one node to `this.totalRisk` (1272, 1275):
the clamped aggregate for wallets, the stored risk for tokens, nothing for
anything else. -/
def pass1Contrib (n : Node) : ℚ :=
  if n.ntype == "wallet" then finalizeWalletRisk n
  else if n.ntype == "token" then n.riskLevel
  else 0

/-- Total first-pass contribution to `this.totalRisk`. -/
def pass1TotalDelta (nodes : List Node) : ℚ := (nodes.map pass1Contrib).sum

/-- The links incident to `id` (the `idToLinks` grouping of 1201–1213; a
self-loop would be pushed twice there, but no pass of the analyzer creates
self-loops). -/
def linksOf (links : List Link) (id : String) : List Link :=
  links.filter (fun l => l.source == id || l.target == id)

/-- `nodeMap.get`: JS `Map.set` lets the last occurrence of an id win. -/
def nodeMapGet (nodes : List Node) (id : String) : Option Node :=
  (nodes.filter (fun n => n.id == id)).getLast?

/-- `firstLevelConnectionIds` (1284–1295): wallet ids directly linked to the
main node. -/
def firstLevelIds (nodes : List Node) (links : List Link) (mainNode : Option String) :
    List String :=
  match mainNode with
  | none => []  -- `idToLinks.get(null) || []`
  | some m =>
    (linksOf links m).foldl
      (fun acc l =>
        let cid := if l.source == m then l.target else l.source
        match nodeMapGet nodes cid with
        | some n => if n.ntype == "wallet" then addToSet acc cid else acc
        | none => acc)
      []

/-- `interconnectionCount` for one first-level wallet (1304–1318): its links
to other first-level wallets distinct from the main node. -/
def interconnectionCount (nodes : List Node) (links : List Link) (mainNode : Option String)
    (firstLevel : List String) (wid : String) : ℕ :=
  ((linksOf links wid).filter
    (fun l =>
      let oid := if l.source == wid then l.target else l.source
      match nodeMapGet nodes oid with
      | some n =>
        n.ntype == "wallet" && firstLevel.contains oid &&
          (match mainNode with | some m => oid != m | none => true)
      | none => false)).length

/-- `_calculateFinalRisk` (1187–1365).  Pass 1 aggregates and clamps every
wallet's risk, accumulating `totalRisk` as it goes; pass 2 adds the capped
interconnection bonus to first-level wallets (mutating nodes **after**
`totalRisk` was accumulated); the metrics are then recomputed, with
`riskScore = round(totalRisk / n × 100 × min(n,10)/10)`.  The JS applies the
bonus through a `Map` keyed by node id; runs keep node ids unique, for which
the per-node map below coincides with it. -/
def calculateFinalRisk (st : CoreState) : CoreState :=
  let nodes1 := st.networkData.nodes.map pass1Node
  let totalRisk := st.totalRisk + pass1TotalDelta st.networkData.nodes
  let links := st.networkData.links
  let mainNode := st.networkData.mainNode
  let firstLevel := firstLevelIds nodes1 links mainNode
  let nodes2 := nodes1.map
    (fun n =>
      if firstLevel.contains n.id then
        let c := interconnectionCount nodes1 links mainNode firstLevel n.id
        if c > 0 then
          { n with riskLevel := min (n.riskLevel + min 0.3 ((c : ℚ) * 0.05)) 1 }
        else n
      else n)
  let nodeCount := nodes2.length
  let riskScore : ℤ :=
    if nodeCount > 0 then
      jsRound (totalRisk / (nodeCount : ℚ) * 100 * (min (nodeCount : ℚ) 10 / 10))
    else 0
  { st with
    networkData := { st.networkData with nodes := nodes2 },
    totalRisk := totalRisk,
    metrics :=
      { riskScore := riskScore,
        connectedWallets :=
          (nodes2.filter (fun n => n.ntype == "wallet" &&
            (match mainNode with | some m => n.id != m | none => true))).length,
        connectedTokens := (nodes2.filter (fun n => n.ntype == "token")).length,
        suspiciousConnections := (links.filter (fun l => l.suspicious)).length } }

/-! ## Network risk and findings (`_calculateNetworkRisk`, `_generateFindings`) -/

/-- `_calculateInterconnectionScore` (1731–1764). -/
def interconnectionScore (st : CoreState) : ℚ :=
  let wallets := st.networkData.nodes.filter
    (fun n => n.ntype == "wallet" &&
      (match st.networkData.mainNode with | some m => n.id != m | none => true))
  if wallets.length < 3 then 0
  else
    let walletIds := wallets.map (fun w => w.id)
    let w2w := (st.networkData.links.filter
      (fun l => walletIds.contains l.source && walletIds.contains l.target)).length
    let maxPossible : ℚ := (wallets.length : ℚ) * ((wallets.length : ℚ) - 1) / 2
    let ratio := (w2w : ℚ) / max 1 maxPossible
    let ratio := ratio / (0.2 + ratio)
    min 1.0 ratio

/-- `_calculateNetworkRisk` (1644–1723).  `Math.pow` with the fractional
exponents 0.8/0.7/0.9 is the runtime's `env.jsPow`. -/
def calculateNetworkRisk (env : Env) (st : CoreState) : ℚ :=
  let nodes := st.networkData.nodes
  let links := st.networkData.links
  let totalNodes := nodes.length
  let highRiskNodes := nodes.filter (fun n => decide (n.riskLevel ≥ 0.7))
  let highRiskRatio :=
    if totalNodes > 0 then
      env.jsPow ((highRiskNodes.length : ℚ) / (totalNodes : ℚ)) 0.8
    else 0
  let knownHighRisk := nodes.filter
    (fun n => n.ntype == "wallet" && HIGH_RISK_ADDRESSES.contains (baseAddress n.id))
  let knownHighRiskImpact :=
    if knownHighRisk.length > 0 then min 0.8 (0.3 + (knownHighRisk.length : ℚ) * 0.1) else 0
  let suspiciousLinks := links.filter (fun l => l.suspicious)
  let suspiciousLinkRatio :=
    if suspiciousLinks.length > 0 then
      (suspiciousLinks.length : ℚ) / ((max 5 links.length : ℕ) : ℚ)
    else 0
  let earlyParticipants := nodes.filter (fun n => n.earlyParticipant)
  let highRiskEP := earlyParticipants.filter (fun n => decide (n.riskLevel ≥ 0.6))
  let earlyParticipantRiskRatio :=
    if earlyParticipants.length > 0 then
      env.jsPow ((highRiskEP.length : ℚ) / (earlyParticipants.length : ℚ)) 0.7
    else 0
  let tokenNodes := nodes.filter (fun n => n.ntype == "token")
  let highRiskTokens := tokenNodes.filter (fun n => decide (n.riskLevel ≥ 0.6))
  let tokenRiskRatio :=
    if tokenNodes.length > 0 then
      env.jsPow ((highRiskTokens.length : ℚ) / (tokenNodes.length : ℚ)) 0.9
    else 0
  let creatorWallets := nodes.filter (fun n => n.ntype == "wallet" && n.isCreatorWallet)
  let creatorRisk :=
    if creatorWallets.length > 0 then
      env.jsPow ((creatorWallets.map (fun w => w.riskLevel)).sum / (creatorWallets.length : ℚ)) 0.8
    else 0
  let inter := interconnectionScore st
  let finalRiskScore :=
    if knownHighRiskImpact > 0 then
      (knownHighRiskImpact * 0.5 + highRiskRatio * 0.1 + suspiciousLinkRatio * 0.15 +
        earlyParticipantRiskRatio * 0.1 + tokenRiskRatio * 0.1 + creatorRisk * 0.05) *
        (1 + inter * 0.5)
    else
      highRiskRatio * 0.25 + suspiciousLinkRatio * 0.25 + earlyParticipantRiskRatio * 0.2 +
        tokenRiskRatio * 0.15 + inter * 0.1 + creatorRisk * 0.05
  min 1.0 finalRiskScore

/-- `_getOverallRiskLevel` (1772–1777). -/
def overallRiskLevel (riskScore : ℚ) : String :=
  if riskScore ≥ 0.8 then "critical"
  else if riskScore ≥ 0.6 then "high"
  else if riskScore ≥ 0.4 then "medium"
  else "low"

/-- A finding.  The `details` payloads are projected to the field the
properties under verification reference: the assessment's
`details.riskScore` (stored through `toFixed(2)`); the remaining payloads
(address lists, reasons from `_getWalletRiskReason`, counts already present
in the description) are omitted. -/
structure Finding : Type where
  ftype : String
  severity : String
  description : String
  riskScore : Option ℚ := none
deriving DecidableEq, Repr

/-- JS `x.toFixed(2)` read back as a number, for nonnegative `x`. -/
def toFixed2 (q : ℚ) : ℚ := (jsRound (q * 100) : ℚ) / 100

/-- The `${n > 1 ? 's' : ''}` pluralization used by the descriptions. -/
def plural (n : ℕ) : String := if n > 1 then "s" else ""

/-- `_generateFindings` (1371–1589).  The `walletNodes`/`tokenNodes` maps are
keyed by id (runs keep ids unique, so they are the plain filters below);
`link.highRiskConnection` is never stored by `_addConnection`, so the
`high_risk_wallet_connections` finding can never fire; the pure model cannot
throw, so the catch-all error finding is unreachable. -/
def generateFindings (env : Env) (st : CoreState) : List Finding :=
  let nodes := st.networkData.nodes
  let walletNodes := nodes.filter (fun n => n.ntype == "wallet")
  let tokenNodes := nodes.filter (fun n => n.ntype == "token")
  let suspiciousLinks := st.networkData.links.filter (fun l => l.suspicious)
  let highRiskConnections : List Link := []
  let nodeRiskScores := sortDescBy (fun n => n.riskLevel) walletNodes
  let highRiskWallets := (nodeRiskScores.filter (fun n => decide (n.riskLevel ≥ 0.7))).take 5
  let l1 :=
    if highRiskWallets.length > 0 then
      [{ ftype := "high_risk_wallets", severity := "high",
         description := "Found " ++ toString highRiskWallets.length ++ " high-risk wallet" ++
           plural highRiskWallets.length ++ " in the network" : Finding }]
    else []
  let knownHighRiskWallets := walletNodes.filter
    (fun n => HIGH_RISK_ADDRESSES.contains (baseAddress n.id))
  let l2 :=
    if knownHighRiskWallets.length > 0 then
      [{ ftype := "known_high_risk_wallets", severity := "critical",
         description := "Found " ++ toString knownHighRiskWallets.length ++ " wallet" ++
           plural knownHighRiskWallets.length ++ " from known high-risk list" : Finding }]
    else []
  let creatorWallets := (walletNodes.filter (fun n => n.isCreatorWallet)).take 3
  let l3 :=
    if creatorWallets.length > 0 then
      [{ ftype := "creator_wallet_identified", severity := "high",
         description := "Identified " ++ toString creatorWallets.length ++ " creator wallet" ++
           plural creatorWallets.length ++ " that activated the issuer address" : Finding }]
    else []
  let earlyParticipants :=
    (sortDescBy (fun n => n.riskLevel) (walletNodes.filter (fun n => n.earlyParticipant))).take 10
  let highRiskEarly := earlyParticipants.filter (fun n => decide (n.riskLevel ≥ 0.6))
  let l4 :=
    if highRiskEarly.length > 0 then
      [{ ftype := "high_risk_early_participants", severity := "high",
         description := "Found " ++ toString highRiskEarly.length ++
           " high-risk early participant" ++ plural highRiskEarly.length ++
           " in token transactions" : Finding }]
    else []
  let tokenRisks := (sortDescBy (fun n => n.riskLevel) tokenNodes).take 10
  let highRiskTokens := tokenRisks.filter (fun n => decide (n.riskLevel ≥ 0.6))
  let l5 :=
    if highRiskTokens.length > 0 then
      [{ ftype := "high_risk_tokens", severity := "high",
         description := "Found " ++ toString highRiskTokens.length ++ " high-risk token" ++
           plural highRiskTokens.length : Finding }]
    else []
  let l6 :=
    if suspiciousLinks.length > 0 then
      [{ ftype := "suspicious_connections", severity := "medium",
         description := "Found " ++ toString suspiciousLinks.length ++
           " suspicious connection" ++ plural suspiciousLinks.length ++
           " between wallets" : Finding }]
    else []
  let l7 :=
    if highRiskConnections.length > 0 then
      [{ ftype := "high_risk_wallet_connections", severity := "critical",
         description := "Found " ++ toString highRiskConnections.length ++ " connection" ++
           plural highRiskConnections.length ++ " between high-risk wallets" : Finding }]
    else []
  let networkRisk := calculateNetworkRisk env st
  let lvl := overallRiskLevel networkRisk
  let l8 : List Finding :=
    [{ ftype := "network_risk_assessment", severity := lvl,
       description := "Overall network risk assessment: " ++ jsToUpper lvl,
       riskScore := some (toFixed2 networkRisk) }]
  l1 ++ l2 ++ l3 ++ l4 ++ l5 ++ l6 ++ l7 ++ l8

/-! ## Top level (`reset`, `setMaxDepth`, `analyzeNetwork`) -/

/-- `this.progress`. -/
structure Progress : Type where
  status : String := "starting"
  percent : ℚ := 0
  message : String := "Initializing analysis..."
  startTime : ℚ := 0
  elapsedMs : Option ℚ := none
deriving DecidableEq, Repr

/-- The whole analyzer object: the traversal/scoring state plus the
findings, the configured limits and the progress record. -/
structure AnalyzerState : Type where
  core : CoreState := {}
  findings : List Finding := []
  maxDepth : ℚ := 2
  maxNodes : ℚ := 100
  progress : Progress := {}
deriving DecidableEq, Repr

/-- `reset` (17–43): every field of the analyzer is overwritten
(`maxDepth`/`maxNodes` from `ANALYSIS_DEFAULTS`), so the result does not
depend on the previous state. -/
def resetState (env : Env) : AnalyzerState :=
  { core := {}, findings := [],
    maxDepth := 2, maxNodes := 100,
    progress := { startTime := env.now } }

/-- `setMaxDepth` (49–51): `this.maxDepth = Math.min(Math.max(1, depth), 3)`. -/
def setMaxDepth (st : AnalyzerState) (depth : ℚ) : AnalyzerState :=
  { st with maxDepth := min (max 1 depth) 3 }

/-- `_updateProgress` (142–159). -/
def updateProgress (env : Env) (p : Progress) (percent : ℚ) (message : String) : Progress :=
  { status := if percent < 100 then "in_progress" else "complete",
    percent := min 100 (max 0 percent),
    message := message,
    startTime := p.startTime,
    elapsedMs := some (env.now - p.startTime) }

/-- `analyzeNetwork` (59–134): reset, optional depth clamp, seed insertion,
recursive expansion, early-participant pass, final risk pass, findings.
An invalid seed address throws after the reset; the catch (129–133) records
the error in the progress and rethrows, leaving the state inspectable.  The
traversal fuel `⌈maxDepth⌉ + 1` strictly dominates the recursion depth the
`depth ≥ maxDepth` guard admits. -/
def analyzeNetwork (env : Env) (_prev : AnalyzerState) (address : String)
    (maxDepthArg : Option ℚ) : AnalyzerState :=
  let st := resetState env
  let st := { st with progress :=
      { status := "starting", percent := 0, message := "Initializing analysis...",
        startTime := env.now } }
  let st :=
    match maxDepthArg with
    | some d => setMaxDepth st d  -- `if (maxDepth !== null)`
    | none => st
  let st := { st with core :=
      { st.core with networkData := { st.core.networkData with mainNode := some address } } }
  if ¬ env.isValidAddress address then
    { st with progress := updateProgress env st.progress 100 "Error: Invalid XRPL address" }
  else
    let st := { st with progress := updateProgress env st.progress 5 "Validating address..." }
    let st := { st with core :=
        (addNode st.core address "wallet" { radius := some 15, riskLevel := some 0 }) }
    let st := { st with progress :=
        (updateProgress env st.progress 10 "Starting connection analysis...") }
    let st := { st with core :=
        (analyzeNodeConnections env st.maxDepth st.maxNodes (⌈st.maxDepth⌉₊ + 1)
          address 0 st.core) }
    let st := { st with progress :=
        (updateProgress env st.progress 60 "Analyzing token connections...") }
    let st := { st with core := identifyEarlyParticipants env address st.core }
    let st := { st with progress :=
        (updateProgress env st.progress 80 "Calculating risk scores...") }
    let st := { st with core := calculateFinalRisk st.core }
    let st := { st with progress := updateProgress env st.progress 90 "Generating findings..." }
    let st := { st with findings := generateFindings env st.core }
    { st with progress := updateProgress env st.progress 100 "Analysis complete" }

/-! ## Helper lemmas on `updateFirst` and folds -/

theorem updateFirst_forall₂ {α : Type} {p : α → Bool} {f : α → α} {R : α → α → Prop}
    (hrefl : ∀ a, R a a) (hf : ∀ a, p a = true → R a (f a)) :
    ∀ l : List α, List.Forall₂ R l (updateFirst p f l) := by
  intro l
  induction l with
  | nil => simp [updateFirst]
  | cons a as ih =>
    by_cases h : p a = true
    · simp only [updateFirst, h, if_true]
      exact List.Forall₂.cons (hf a h) (List.forall₂_same.mpr fun x _ => hrefl x)
    · simp only [updateFirst, h, if_false]
      exact List.Forall₂.cons (hrefl a) ih

theorem updateFirst_map_eq {α β : Type} {p : α → Bool} {f : α → α} (g : α → β)
    (hg : ∀ a, p a = true → g (f a) = g a) :
    ∀ l : List α, (updateFirst p f l).map g = l.map g := by
  intro l
  induction l with
  | nil => rfl
  | cons a as ih =>
    by_cases h : p a = true
    · simp [updateFirst, h, hg a h]
    · simp [updateFirst, h, ih]

theorem updateFirst_find? {α : Type} {p : α → Bool} {f : α → α}
    (hp : ∀ a, p (f a) = p a) :
    ∀ l : List α, (updateFirst p f l).find? p = (l.find? p).map f := by
  intro l
  induction l with
  | nil => rfl
  | cons a as ih =>
    by_cases h : p a = true
    · simp [updateFirst, h, List.find?_cons_of_pos, hp]
    · have h' : p a = false := by simpa using h
      simp [updateFirst, h', List.find?_cons_of_neg, ih]

theorem mem_updateFirst {α : Type} {p : α → Bool} {f : α → α} {l : List α} {x : α} :
    x ∈ updateFirst p f l → x ∈ l ∨ ∃ a ∈ l, p a = true ∧ x = f a := by
  induction l with
  | nil => intro hx; simp [updateFirst] at hx
  | cons a as ih =>
    intro hx
    rw [updateFirst] at hx
    by_cases h : p a = true
    · rw [if_pos h] at hx
      rcases List.mem_cons.mp hx with hx | hx
      · exact Or.inr ⟨a, List.mem_cons_self a as, h, hx⟩
      · exact Or.inl (List.mem_cons_of_mem a hx)
    · rw [if_neg h] at hx
      rcases List.mem_cons.mp hx with hx | hx
      · exact Or.inl (hx ▸ List.mem_cons_self a as)
      · rcases ih hx with h' | ⟨b, hb, hpb, hxb⟩
        · exact Or.inl (List.mem_cons_of_mem a h')
        · exact Or.inr ⟨b, List.mem_cons_of_mem a hb, hpb, hxb⟩

/-! ## C1 — `addNode` upsert semantics -/

/-- **C1.**  For every sequence of `addNode` calls within one run the store
never holds two nodes with the same id, and a second `addNode` with an id
already present leaves the node count unchanged, merges only the promotable
fields, and never overwrites the existing node's risk level.  Conjunct 1:
on a state already containing the id, `addNode` keeps `nodeCount`, relates
old and new node lists pointwise (same id, same type, same risk level, a
never-decreasing radius, and — when the submitted properties carry no
early-participant promotion — strict equality), and, when the promotion flag
is submitted, the node stored under the id has its early-participant flag
set and its radius raised to `max(old, properties.radius || 10)` while its
risk level is kept.  Conjunct 2: `addNode` preserves distinctness of node
ids, so no sequence of calls can ever produce a duplicate. -/
theorem addNode_upsert_unique :
    (∀ (st : CoreState) (id ty : String) (props : NodeProps),
      st.networkData.nodes.any (fun n => n.id == id) = true →
        ((addNode st id ty props).nodeCount = st.nodeCount ∧
         List.Forall₂
           (fun o u : Node => u.id = o.id ∧ u.ntype = o.ntype ∧
             u.riskLevel = o.riskLevel ∧ o.radius ≤ u.radius ∧
             (props.earlyParticipant = false → u = o))
           st.networkData.nodes (addNode st id ty props).networkData.nodes ∧
         (props.earlyParticipant = true →
           ((addNode st id ty props).networkData.nodes.find? (fun n => n.id == id)).map
               (fun u => (u.earlyParticipant, u.radius, u.riskLevel)) =
             (st.networkData.nodes.find? (fun n => n.id == id)).map
               (fun o => (true, max o.radius (jsOrQ props.radius 10), o.riskLevel))))) ∧
    (∀ (st : CoreState) (id ty : String) (props : NodeProps),
      (st.networkData.nodes.map Node.id).Nodup →
      ((addNode st id ty props).networkData.nodes.map Node.id).Nodup) := by
  constructor
  · intro st id ty props h
    refine ⟨?_, ?_, ?_⟩
    · simp [addNode, h]
    · simp only [addNode, h, if_true]
      apply updateFirst_forall₂
      · intro a
        refine ⟨rfl, rfl, rfl, le_refl _, fun _ => rfl⟩
      · intro a _
        by_cases hep : props.earlyParticipant = true
        · rw [if_pos hep]
          refine ⟨rfl, rfl, rfl, le_max_left _ _, fun hcontra => ?_⟩
          rw [hep] at hcontra
          exact absurd hcontra (by simp)
        · rw [if_neg hep]
          refine ⟨rfl, rfl, rfl, le_refl _, fun _ => rfl⟩
    · intro hep
      simp only [addNode, h, if_true]
      rw [updateFirst_find? (by intro a; by_cases hb : props.earlyParticipant = true <;>
        simp [hb])]
      cases hfind : st.networkData.nodes.find? (fun n => n.id == id) with
      | none => simp
      | some o => simp [hep]
  · intro st id ty props h
    by_cases hany : st.networkData.nodes.any (fun n => n.id == id) = true
    · simp only [addNode, hany, if_true]
      rw [updateFirst_map_eq Node.id
        (by intro a _; by_cases hb : props.earlyParticipant = true <;> simp [hb])]
      exact h
    · have hany' : st.networkData.nodes.any (fun n => n.id == id) = false := by
        simpa using hany
      simp only [addNode, hany', Bool.false_eq_true, if_false, List.map_append,
        List.map_cons, List.map_nil]
      rw [List.nodup_append]
      refine ⟨h, List.nodup_singleton _, ?_⟩
      intro x hx hy
      simp only [List.mem_singleton] at hy
      simp only [List.mem_map] at hx
      rcases hx with ⟨n, hn, hnx⟩
      rw [List.any_eq_false] at hany'
      have := hany' n hn
      simp only [beq_iff_eq] at this
      exact this (by rw [hnx, hy])

/-- Concrete state for the C1 witness: a store holding one node `"a"`. -/
def stC1 : CoreState :=
  addNode {} "a" "wallet" { radius := some 5, riskLevel := some (1/4) }

section
attribute [local semireducible] Rat.add Rat.sub Rat.mul Rat.inv Rat.ofScientific

/-- Witness for C1: re-adding id `"a"` with a promotion leaves the count at
one node and keeps the ids duplicate-free. -/
theorem addNode_upsert_unique_witness :
    (addNode stC1 "a" "wallet" { earlyParticipant := true, radius := some 20 }).nodeCount =
      stC1.nodeCount ∧
    ((addNode stC1 "a" "wallet"
        { earlyParticipant := true, radius := some 20 }).networkData.nodes.map Node.id).Nodup :=
  ⟨(addNode_upsert_unique.1 stC1 "a" "wallet"
      { earlyParticipant := true, radius := some 20 } (by decide)).1,
   addNode_upsert_unique.2 stC1 "a" "wallet"
      { earlyParticipant := true, radius := some 20 } (by decide)⟩

end

/-! ## C2 — `_addConnection` upsert semantics -/

/-- The links stored between the unordered pair `{a, b}`. -/
def linksBetween (a b : String) (st : CoreState) : List Link :=
  st.networkData.links.filter (linkMatches a b)

/-- A sequence of `_addConnection` calls on the pair `{a, b}`; the boolean
picks the orientation in which each call submits the pair. -/
def applyCalls (a b : String) (st : CoreState) (calls : List (Bool × ConnProps)) : CoreState :=
  calls.foldl
    (fun st c => addConnection st (if c.1 then a else b) (if c.1 then b else a) c.2) st

/-- An arbitrary sequence of `_addConnection` calls. -/
def applyEdgeCalls (st : CoreState) (calls : List (String × String × ConnProps)) : CoreState :=
  calls.foldl (fun st c => addConnection st c.1 c.2.1 c.2.2) st

/-- No two stored links connect the same unordered endpoint pair. -/
def AtMostOnePerPair (links : List Link) : Prop :=
  List.Pairwise
    (fun l1 l2 => ¬ ((l1.source = l2.source ∧ l1.target = l2.target) ∨
                     (l1.source = l2.target ∧ l1.target = l2.source))) links

theorem linkMatches_comm (s t : String) (l : Link) :
    linkMatches s t l = linkMatches t s l := by
  simp [linkMatches, Bool.or_comm]

theorem linkMatches_true_iff (s t : String) (l : Link) :
    linkMatches s t l = true ↔
      (l.source = s ∧ l.target = t) ∨ (l.source = t ∧ l.target = s) := by
  simp [linkMatches]

theorem addConnection_frame (st : CoreState) (s t : String) (p : ConnProps) :
    (addConnection st s t p).networkData.nodes = st.networkData.nodes ∧
    (addConnection st s t p).networkData.mainNode = st.networkData.mainNode ∧
    (addConnection st s t p).nodeCount = st.nodeCount ∧
    (addConnection st s t p).visitedNodes = st.visitedNodes ∧
    (addConnection st s t p).analyzedTokens = st.analyzedTokens ∧
    (addConnection st s t p).expandLog = st.expandLog := by
  unfold addConnection
  split_ifs <;> simp

theorem pairwise_updateFirst {α : Type} {R : α → α → Prop} {p : α → Bool} {f : α → α}
    (hl : ∀ a b, R a b → R (f a) b) (hr : ∀ a b, R a b → R a (f b)) :
    ∀ l : List α, l.Pairwise R → (updateFirst p f l).Pairwise R := by
  intro l
  induction l with
  | nil => intro _; simp [updateFirst]
  | cons a as ih =>
    intro hp
    rcases List.pairwise_cons.mp hp with ⟨ha, has⟩
    rw [updateFirst]
    by_cases h : p a = true
    · rw [if_pos h]
      exact List.pairwise_cons.mpr ⟨fun b hb => hl a b (ha b hb), has⟩
    · rw [if_neg h]
      refine List.pairwise_cons.mpr ⟨?_, ih has⟩
      intro b hb
      rcases mem_updateFirst hb with hb' | ⟨c, hc, _, hbc⟩
      · exact ha b hb'
      · exact hbc ▸ hr a c (ha c hc)

theorem filter_updateFirst_singleton {α : Type} (p : α → Bool) (f : α → α)
    (hp : ∀ a, p (f a) = p a) :
    ∀ (l : List α) (x : α), l.filter p = [x] →
      (updateFirst p f l).filter p = [f x] := by
  intro l
  induction l with
  | nil => intro x hx; simp at hx
  | cons a as ih =>
    intro x hx
    by_cases h : p a = true
    · rw [List.filter_cons_of_pos h] at hx
      have hax : a = x ∧ as.filter p = [] := by
        constructor
        · exact (List.cons_eq_cons.mp hx).1
        · exact (List.cons_eq_cons.mp hx).2
      rw [updateFirst, if_pos h, List.filter_cons_of_pos (by rw [hp]; exact h), hax.1,
        hax.2]
    · have h' : p a = false := by simpa using h
      rw [List.filter_cons_of_neg (by simp [h'])] at hx
      rw [updateFirst, if_neg h, List.filter_cons_of_neg (by simp [h'])]
      exact ih x hx

theorem foldl_max_key_mem {α : Type} (g : α → ℚ) (l : List α) (a : ℚ) :
    l.foldl (fun acc x => max acc (g x)) a = a ∨
      ∃ x ∈ l, l.foldl (fun acc x => max acc (g x)) a = g x := by
  induction l generalizing a with
  | nil => exact Or.inl rfl
  | cons y ys ih =>
    rw [List.foldl_cons]
    rcases ih (max a (g y)) with h | ⟨x, hx, hfx⟩
    · rcases max_choice a (g y) with hm | hm
      · exact Or.inl (by rw [h, hm])
      · exact Or.inr ⟨y, List.mem_cons_self y ys, by rw [h, hm]⟩
    · exact Or.inr ⟨x, List.mem_cons_of_mem y hx, hfx⟩

theorem le_foldl_max_key {α : Type} (g : α → ℚ) (l : List α) (a : ℚ) :
    a ≤ l.foldl (fun acc x => max acc (g x)) a ∧
      ∀ x ∈ l, g x ≤ l.foldl (fun acc x => max acc (g x)) a := by
  induction l generalizing a with
  | nil => exact ⟨le_refl a, by simp⟩
  | cons y ys ih =>
    rcases ih (max a (g y)) with ⟨h1, h2⟩
    rw [List.foldl_cons]
    refine ⟨le_trans (le_max_left a (g y)) h1, ?_⟩
    intro x hx
    rcases List.mem_cons.mp hx with hxy | hxys
    · subst hxy
      exact le_trans (le_max_right a (g x)) h1
    · exact h2 x hxys

theorem foldl_or_any {α : Type} (l : List α) (f : α → Bool) (b : Bool) :
    l.foldl (fun acc x => acc || f x) b = (b || l.any f) := by
  induction l generalizing b with
  | nil => simp
  | cons x xs ih => simp [List.foldl_cons, ih, Bool.or_assoc]

theorem addConnection_noop (st : CoreState) (s t : String) (p : ConnProps)
    (h : st.networkData.nodes.any (fun n => n.id == s) = false ∨
         st.networkData.nodes.any (fun n => n.id == t) = false) :
    addConnection st s t p = st := by
  unfold addConnection
  rw [if_pos]
  rcases h with h | h
  · exact Or.inl (by simp [h])
  · exact Or.inr (by simp [h])

theorem pairUnique_append_fresh (links : List Link) (s t : String) (v : ℚ) (b : Bool)
    (tt : Option String) (h : AtMostOnePerPair links)
    (h2 : ¬ links.any (linkMatches s t) = true) :
    AtMostOnePerPair (links ++
      [{ source := s, target := t, value := v, suspicious := b, transactionType := tt }]) := by
  simp only [AtMostOnePerPair] at h ⊢
  rw [List.pairwise_append]
  refine ⟨h, List.pairwise_singleton _ _, ?_⟩
  intro l hl l' hl'
  simp only [List.mem_singleton] at hl'
  subst hl'
  intro hcontra
  apply h2
  rw [List.any_eq_true]
  refine ⟨l, hl, ?_⟩
  rw [linkMatches_true_iff]
  simpa using hcontra

theorem addConnection_pairUnique (st : CoreState) (s t : String) (p : ConnProps)
    (h : AtMostOnePerPair st.networkData.links) :
    AtMostOnePerPair (addConnection st s t p).networkData.links := by
  unfold addConnection
  split_ifs with h1 h2 hsusp
  · exact h
  · refine pairwise_updateFirst ?_ ?_ _ h
    · intro a b hab; exact hab
    · intro a b hab; exact hab
  · exact pairUnique_append_fresh _ s t _ _ _ h h2
  · exact pairUnique_append_fresh _ s t _ _ _ h h2

/-- **C2 counterexample.**  The claim says the stored weight equals the
maximum over all submitted values.  Starting from two nodes and no edge,
a single `_addConnection` call submitting `value = 0` stores weight `1`
(the JS `properties.value || 1` coercion), not `max {0} = 0`. -/
def stC2 : CoreState :=
  addNode (addNode {} "a" "wallet" { radius := some 1, riskLevel := some 0 })
    "b" "wallet" { radius := some 1, riskLevel := some 0 }

section
attribute [local semireducible] Rat.add Rat.sub Rat.mul Rat.inv Rat.ofScientific

theorem addConnection_zero_value_coerced :
    linksBetween "a" "b" (applyCalls "a" "b" stC2 [(true, { value := some 0 })]) =
      [{ source := "a", target := "b", value := 1, suspicious := false }] ∧
    ¬ ((1 : ℚ) = 0) := by
  constructor
  · decide
  · decide

end

theorem addConnection_exists_noop_ne (st : CoreState) (a b s t : String)
    (horient : (s = a ∧ t = b) ∨ (s = b ∧ t = a))
    (hA : st.networkData.nodes.any (fun n => n.id == a) = true)
    (hB : st.networkData.nodes.any (fun n => n.id == b) = true) :
    ¬ (¬ (st.networkData.nodes.any (fun n => n.id == s)) = true ∨
       ¬ (st.networkData.nodes.any (fun n => n.id == t)) = true) := by
  rcases horient with ⟨hs, ht⟩ | ⟨hs, ht⟩ <;> subst hs <;> subst ht <;>
    simp [hA, hB]

theorem linkMatches_orient_eq (a b s t : String)
    (horient : (s = a ∧ t = b) ∨ (s = b ∧ t = a)) :
    linkMatches s t = linkMatches a b := by
  rcases horient with ⟨hs, ht⟩ | ⟨hs, ht⟩
  · rw [hs, ht]
  · rw [hs, ht]
    funext l
    exact linkMatches_comm b a l

theorem addConnection_existing_filter (st : CoreState) (a b s t : String) (p : ConnProps)
    (l : Link) (horient : (s = a ∧ t = b) ∨ (s = b ∧ t = a))
    (hA : st.networkData.nodes.any (fun n => n.id == a) = true)
    (hB : st.networkData.nodes.any (fun n => n.id == b) = true)
    (hfilter : st.networkData.links.filter (linkMatches a b) = [l]) :
    (addConnection st s t p).networkData.links.filter (linkMatches a b) =
      [{ l with value := max l.value (jsOrQ p.value 1),
                suspicious := l.suspicious || p.suspicious }] := by
  have hpred := linkMatches_orient_eq a b s t horient
  have hlmem : l ∈ st.networkData.links ∧ linkMatches a b l = true := by
    have : l ∈ st.networkData.links.filter (linkMatches a b) := by
      rw [hfilter]; exact List.mem_singleton_self l
    exact ⟨(List.mem_filter.mp this).1, (List.mem_filter.mp this).2⟩
  have hany : st.networkData.links.any (linkMatches s t) = true := by
    rw [hpred, List.any_eq_true]
    exact ⟨l, hlmem.1, hlmem.2⟩
  unfold addConnection
  rw [if_neg (addConnection_exists_noop_ne st a b s t horient hA hB), if_pos hany]
  show (updateFirst (linkMatches s t) _ st.networkData.links).filter (linkMatches a b) = _
  rw [hpred]
  exact filter_updateFirst_singleton (linkMatches a b)
    (fun x => { x with value := max x.value (jsOrQ p.value 1),
                       suspicious := x.suspicious || p.suspicious })
    (fun x => rfl) st.networkData.links l hfilter

theorem addConnection_new_filter (st : CoreState) (a b s t : String) (p : ConnProps)
    (horient : (s = a ∧ t = b) ∨ (s = b ∧ t = a))
    (hA : st.networkData.nodes.any (fun n => n.id == a) = true)
    (hB : st.networkData.nodes.any (fun n => n.id == b) = true)
    (hempty : st.networkData.links.filter (linkMatches a b) = []) :
    (addConnection st s t p).networkData.links.filter (linkMatches a b) =
      [{ source := s, target := t, value := jsOrQ p.value 1,
         suspicious := p.suspicious, transactionType := p.transactionType }] := by
  have hpred := linkMatches_orient_eq a b s t horient
  have hany : ¬ st.networkData.links.any (linkMatches s t) = true := by
    rw [hpred]
    intro hcontra
    rcases List.any_eq_true.mp hcontra with ⟨x, hx, hpx⟩
    have : x ∈ st.networkData.links.filter (linkMatches a b) :=
      List.mem_filter.mpr ⟨hx, hpx⟩
    rw [hempty] at this
    exact absurd this (List.not_mem_nil x)
  have hfreshmatch : linkMatches a b
      { source := s, target := t, value := jsOrQ p.value 1,
        suspicious := p.suspicious, transactionType := p.transactionType } = true := by
    rcases horient with ⟨hs, ht⟩ | ⟨hs, ht⟩ <;> subst hs <;> subst ht <;>
      simp [linkMatches]
  unfold addConnection
  rw [if_neg (addConnection_exists_noop_ne st a b s t horient hA hB), if_neg hany]
  split_ifs <;>
    · show (st.networkData.links ++ [_]).filter (linkMatches a b) = _
      rw [List.filter_append, hempty, List.nil_append, List.filter_cons_of_pos hfreshmatch,
        List.filter_nil]

theorem applyCalls_merge_chain (a b : String) :
    ∀ (cs : List (Bool × ConnProps)) (st : CoreState) (l : Link),
    st.networkData.nodes.any (fun n => n.id == a) = true →
    st.networkData.nodes.any (fun n => n.id == b) = true →
    linksBetween a b st = [l] →
    ∃ l', linksBetween a b (applyCalls a b st cs) = [l'] ∧
      l'.value = cs.foldl (fun acc x => max acc (jsOrQ x.2.value 1)) l.value ∧
      l'.suspicious = cs.foldl (fun acc x => acc || x.2.suspicious) l.suspicious := by
  intro cs
  induction cs with
  | nil => intro st l _ _ hf; exact ⟨l, hf, rfl, rfl⟩
  | cons x xs ih =>
    intro st l hA hB hf
    rcases x with ⟨o, p⟩
    have horient : ((if o then a else b) = a ∧ (if o then b else a) = b) ∨
        ((if o then a else b) = b ∧ (if o then b else a) = a) := by
      cases o
      · exact Or.inr ⟨rfl, rfl⟩
      · exact Or.inl ⟨rfl, rfl⟩
    have hstep := addConnection_existing_filter st a b (if o then a else b)
      (if o then b else a) p l horient hA hB hf
    have hframe := addConnection_frame st (if o then a else b) (if o then b else a) p
    have hA' : (addConnection st (if o then a else b) (if o then b else a)
        p).networkData.nodes.any (fun n => n.id == a) = true := by rw [hframe.1]; exact hA
    have hB' : (addConnection st (if o then a else b) (if o then b else a)
        p).networkData.nodes.any (fun n => n.id == b) = true := by rw [hframe.1]; exact hB
    rcases ih (addConnection st (if o then a else b) (if o then b else a) p)
      { l with value := max l.value (jsOrQ p.value 1),
               suspicious := l.suspicious || p.suspicious } hA' hB' hstep with
      ⟨l', hf', hv', hs'⟩
    exact ⟨l', hf', hv', hs'⟩

/-- **C2 (amended).**  For every unordered pair of node ids, after any
sequence of `_addConnection` calls at most one edge exists between the
pair; when both endpoints exist and no edge between them does, a nonempty
sequence of calls on the pair leaves exactly one edge whose weight is the
maximum over all submitted values **after the JS `value || 1` coercion**
(a submitted `0` or missing value counts as `1`) and whose suspicious flag
is true iff at least one call submitted it true; a call in which either
endpoint is absent leaves the state completely unchanged. -/
theorem addConnection_upsert_semantics :
    (∀ (st : CoreState) (calls : List (String × String × ConnProps)),
      AtMostOnePerPair st.networkData.links →
      AtMostOnePerPair (applyEdgeCalls st calls).networkData.links) ∧
    (∀ (st : CoreState) (s t : String) (p : ConnProps),
      (st.networkData.nodes.any (fun n => n.id == s) = false ∨
       st.networkData.nodes.any (fun n => n.id == t) = false) →
      addConnection st s t p = st) ∧
    (∀ (st : CoreState) (a b : String),
      st.networkData.nodes.any (fun n => n.id == a) = true →
      st.networkData.nodes.any (fun n => n.id == b) = true →
      linksBetween a b st = [] →
      ∀ (c : Bool × ConnProps) (cs : List (Bool × ConnProps)),
        ∃ l, linksBetween a b (applyCalls a b st (c :: cs)) = [l] ∧
          l.value ∈ ((c :: cs).map (fun x => jsOrQ x.2.value 1)) ∧
          (∀ v ∈ ((c :: cs).map (fun x => jsOrQ x.2.value 1)), v ≤ l.value) ∧
          l.suspicious = ((c :: cs).any (fun x => x.2.suspicious))) := by
  refine ⟨?_, ?_, ?_⟩
  · intro st calls h
    induction calls generalizing st with
    | nil => exact h
    | cons c cs ih =>
      exact ih (addConnection st c.1 c.2.1 c.2.2)
        (addConnection_pairUnique st c.1 c.2.1 c.2.2 h)
  · intro st s t p h
    exact addConnection_noop st s t p h
  · intro st a b hA hB hempty c cs
    rcases c with ⟨o, p⟩
    have horient : ((if o then a else b) = a ∧ (if o then b else a) = b) ∨
        ((if o then a else b) = b ∧ (if o then b else a) = a) := by
      cases o
      · exact Or.inr ⟨rfl, rfl⟩
      · exact Or.inl ⟨rfl, rfl⟩
    have hstep := addConnection_new_filter st a b (if o then a else b)
      (if o then b else a) p horient hA hB hempty
    have hframe := addConnection_frame st (if o then a else b) (if o then b else a) p
    have hA' := hframe.1 ▸ hA
    have hB' := hframe.1 ▸ hB
    rcases applyCalls_merge_chain a b cs
      (addConnection st (if o then a else b) (if o then b else a) p)
      { source := if o then a else b, target := if o then b else a,
        value := jsOrQ p.value 1, suspicious := p.suspicious,
        transactionType := p.transactionType } hA' hB' hstep with ⟨l', hf', hv', hs'⟩
    refine ⟨l', hf', ?_, ?_, ?_⟩
    · rw [hv', List.map_cons]
      rcases foldl_max_key_mem (fun x => jsOrQ x.2.value 1) cs (jsOrQ p.value 1) with
        hcase | ⟨x, hx, hfx⟩
      · rw [hcase]
        exact List.mem_cons_self _ _
      · rw [hfx]
        exact List.mem_cons_of_mem _ (List.mem_map_of_mem _ hx)
    · intro v hv
      rw [hv']
      rcases le_foldl_max_key (fun x => jsOrQ x.2.value 1) cs (jsOrQ p.value 1) with
        ⟨hle1, hle2⟩
      rw [List.map_cons] at hv
      rcases List.mem_cons.mp hv with hvh | hvt
      · exact hvh ▸ hle1
      · rcases List.mem_map.mp hvt with ⟨x, hx, hfx⟩
        exact hfx ▸ hle2 x hx
    · rw [hs', foldl_or_any, List.any_cons]

section
attribute [local semireducible] Rat.add Rat.sub Rat.mul Rat.inv Rat.ofScientific

theorem addConnection_upsert_semantics_witness :
    AtMostOnePerPair (applyEdgeCalls stC2
      [("a", "b", { value := some 3 }),
       ("b", "a", { value := some 0, suspicious := true })]).networkData.links ∧
    addConnection stC2 "a" "rNone" { value := some 5 } = stC2 ∧
    (∃ l, linksBetween "a" "b" (applyCalls "a" "b" stC2
        (((true : Bool), ({ value := some 3 } : ConnProps)) ::
          [((false : Bool), ({ value := some 0, suspicious := true } : ConnProps))])) = [l] ∧
      l.value ∈ ((((true : Bool), ({ value := some 3 } : ConnProps)) ::
          [((false : Bool), ({ value := some 0, suspicious := true } : ConnProps))]).map
            (fun x => jsOrQ x.2.value 1)) ∧
      (∀ v ∈ ((((true : Bool), ({ value := some 3 } : ConnProps)) ::
          [((false : Bool), ({ value := some 0, suspicious := true } : ConnProps))]).map
            (fun x => jsOrQ x.2.value 1)), v ≤ l.value) ∧
      l.suspicious = ((((true : Bool), ({ value := some 3 } : ConnProps)) ::
          [((false : Bool), ({ value := some 0, suspicious := true } : ConnProps))]).any
            (fun x => x.2.suspicious))) :=
  ⟨addConnection_upsert_semantics.1 stC2 _ (by unfold AtMostOnePerPair; decide),
   addConnection_upsert_semantics.2.1 stC2 "a" "rNone" _ (Or.inr (by decide)),
   addConnection_upsert_semantics.2.2 stC2 "a" "b" (by decide) (by decide) (by decide)
     ((true : Bool), ({ value := some 3 } : ConnProps))
     [((false : Bool), ({ value := some 0, suspicious := true } : ConnProps))]⟩

end

/-! ## Traversal invariants — frame machinery shared by the visited-set,
depth-bound and risk-range analyses -/

/-- `st'` keeps the same visited set and expansion log as `st` (the graph
may have grown). -/
def SameVL (st st' : CoreState) : Prop :=
  st'.visitedNodes = st.visitedNodes ∧ st'.expandLog = st.expandLog

theorem sameVL_refl (st : CoreState) : SameVL st st := ⟨rfl, rfl⟩

theorem sameVL_trans {s1 s2 s3 : CoreState} (h1 : SameVL s1 s2) (h2 : SameVL s2 s3) :
    SameVL s1 s3 := ⟨h2.1.trans h1.1, h2.2.trans h1.2⟩

/-- Generic fold preservation for a reflexive transitive relation, with the
element's membership available to the step hypothesis. -/
theorem foldl_rel {α β : Type} (R : β → β → Prop)
    (hrefl : ∀ s, R s s) (htrans : ∀ {a b c : β}, R a b → R b c → R a c)
    (f : β → α → β) :
    ∀ (l : List α), (∀ st a, a ∈ l → R st (f st a)) → ∀ st : β, R st (l.foldl f st)
  | [], _, st => hrefl st
  | a :: l, hf, st =>
    htrans (hf st a (List.mem_cons_self a l))
      (foldl_rel R hrefl htrans f l (fun st b hb => hf st b (List.mem_cons_of_mem a hb)) _)

theorem addNode_sameVL (st : CoreState) (id ty : String) (props : NodeProps) :
    SameVL st (addNode st id ty props) := by
  unfold addNode
  split <;> exact ⟨rfl, rfl⟩

theorem addConnection_sameVL (st : CoreState) (s t : String) (p : ConnProps) :
    SameVL st (addConnection st s t p) :=
  ⟨(addConnection_frame st s t p).2.2.2.1, (addConnection_frame st s t p).2.2.2.2.2⟩

theorem txScanStep_sameVL (env : Env) (addr : String) (acc : TxScanAcc) (tx : Transaction) :
    SameVL acc.st (txScanStep env addr acc tx).st := by
  unfold txScanStep
  repeat' split
  all_goals first
    | exact sameVL_refl _
    | exact addConnection_sameVL _ _ _ _

theorem tokenConnStep_sameVL (env : Env) (addr : String) (st : CoreState) (token : Token) :
    SameVL st (tokenConnStep env addr st token) := by
  unfold tokenConnStep
  dsimp only
  split
  · exact sameVL_refl _
  · refine sameVL_trans (sameVL_trans ?_ (addNode_sameVL _ _ _ _))
      (addConnection_sameVL _ _ _ _)
    exact ⟨rfl, rfl⟩

theorem analyzeTokenConnections_sameVL (env : Env) (addr : String) (st : CoreState) :
    SameVL st (analyzeTokenConnections env addr st) := by
  unfold analyzeTokenConnections
  dsimp only
  split
  · exact sameVL_refl _
  · refine sameVL_trans ?_
      (foldl_rel SameVL sameVL_refl sameVL_trans (tokenConnStep env addr) _
        (fun st t _ => tokenConnStep_sameVL env addr st t) _)
    exact ⟨rfl, rfl⟩

theorem connectRelatedWallets_sameVL (st : CoreState) :
    SameVL st (connectRelatedWallets st) := by
  unfold connectRelatedWallets
  dsimp only
  split
  · exact sameVL_refl _
  · refine sameVL_trans
      (foldl_rel SameVL sameVL_refl sameVL_trans _ _ (fun st p _ => ?_) st)
      (sameVL_trans
        (foldl_rel SameVL sameVL_refl sameVL_trans _ _ (fun st p _ => ?_) _)
        (foldl_rel SameVL sameVL_refl sameVL_trans _ _ (fun st p _ => ?_) _))
    · repeat' split
      all_goals first
        | exact sameVL_refl _
        | exact addConnection_sameVL _ _ _ _
    · exact addConnection_sameVL _ _ _ _
    · split
      · refine foldl_rel SameVL sameVL_refl sameVL_trans _ _ (fun st q _ => ?_) _
        repeat' split
        all_goals first
          | exact sameVL_refl _
          | exact addConnection_sameVL _ _ _ _
      · exact sameVL_refl _

theorem connectHighRiskWallets_sameVL (st : CoreState) :
    SameVL st (connectHighRiskWallets st) := by
  unfold connectHighRiskWallets
  dsimp only
  split
  · exact sameVL_refl _
  · refine sameVL_trans
      (foldl_rel SameVL sameVL_refl sameVL_trans _ _ (fun st p _ => ?_) st)
      (sameVL_trans
        (foldl_rel SameVL sameVL_refl sameVL_trans _ _ (fun st w _ => ?_) _)
        (connectRelatedWallets_sameVL _))
    · exact addConnection_sameVL _ _ _ _
    · repeat' split
      all_goals first
        | exact sameVL_refl _
        | exact addConnection_sameVL _ _ _ _

theorem epParticipantStep_sameVL (tokenId : String) (earlyTxCount : ℕ)
    (positions : List (String × ℕ)) (st : CoreState) (participant : String) :
    SameVL st (epParticipantStep tokenId earlyTxCount positions st participant) :=
  sameVL_trans (addNode_sameVL _ _ _ _) (addConnection_sameVL _ _ _ _)

theorem epTokenLoop_sameVL (env : Env) (addr : String) :
    ∀ (toks : List Token) (st : CoreState), SameVL st (epTokenLoop env addr toks st)
  | [], st => sameVL_refl st
  | token :: rest, st => by
    rw [epTokenLoop]
    split
    · exact epTokenLoop_sameVL env addr rest st
    · split
      · exact sameVL_refl _
      · refine sameVL_trans
          (sameVL_trans
            (foldl_rel SameVL sameVL_refl sameVL_trans _ _
              (fun st p _ => epParticipantStep_sameVL _ _ _ st p) st)
            ⟨rfl, rfl⟩)
          (epTokenLoop_sameVL env addr rest _)

theorem identifyEarlyParticipants_sameVL (env : Env) (addr : String) (st : CoreState) :
    SameVL st (identifyEarlyParticipants env addr st) := by
  unfold identifyEarlyParticipants
  split
  · exact sameVL_refl _
  · exact epTokenLoop_sameVL env addr _ st

theorem calculateFinalRisk_sameVL (st : CoreState) :
    SameVL st (calculateFinalRisk st) := ⟨rfl, rfl⟩

theorem subset_addToSet (l : List String) (x : String) : l ⊆ addToSet l x := by
  unfold addToSet
  split
  · exact List.Subset.refl _
  · exact List.subset_append_left _ _

theorem mem_addToSet_self (l : List String) (x : String) : x ∈ addToSet l x := by
  unfold addToSet
  split
  · next h => exact List.elem_iff.mp h
  · exact List.mem_append_right _ (List.mem_singleton.mpr rfl)

/-- Relates a traversal state to a later one: the visited set only grows,
and the expansion log grows by addresses that are pairwise distinct, not
previously visited, and visited afterwards, each recorded at a depth
strictly below `D`. -/
def ExpandStep (D : ℚ) (st st' : CoreState) : Prop :=
  st.visitedNodes ⊆ st'.visitedNodes ∧
  ∃ L, st'.expandLog = st.expandLog ++ L ∧
    (L.map Prod.fst).Nodup ∧
    (∀ p ∈ L, (p.2 : ℚ) < D) ∧
    (∀ p ∈ L, p.1 ∈ st'.visitedNodes ∧ p.1 ∉ st.visitedNodes)

theorem expandStep_of_sameVL {D : ℚ} {st st' : CoreState} (h : SameVL st st') :
    ExpandStep D st st' := by
  refine ⟨by rw [h.1]; exact List.Subset.refl _, [],
    by rw [h.2, List.append_nil], List.nodup_nil, ?_, ?_⟩ <;>
    exact fun p hp => absurd hp (List.not_mem_nil p)

theorem expandStep_trans {D : ℚ} {s1 s2 s3 : CoreState}
    (h1 : ExpandStep D s1 s2) (h2 : ExpandStep D s2 s3) : ExpandStep D s1 s3 := by
  obtain ⟨hv1, L1, hl1, hn1, hd1, hm1⟩ := h1
  obtain ⟨hv2, L2, hl2, hn2, hd2, hm2⟩ := h2
  refine ⟨hv1.trans hv2, L1 ++ L2, by rw [hl2, hl1, List.append_assoc], ?_, ?_, ?_⟩
  · rw [List.map_append]
    refine hn1.append hn2 ?_
    intro a ha1 ha2
    rcases List.mem_map.mp ha1 with ⟨p, hp, hpe⟩
    rcases List.mem_map.mp ha2 with ⟨q, hq, hqe⟩
    exact (hm2 q hq).2 ((hqe.trans hpe.symm) ▸ (hm1 p hp).1)
  · intro p hp
    rcases List.mem_append.mp hp with h | h
    · exact hd1 p h
    · exact hd2 p h
  · intro p hp
    rcases List.mem_append.mp hp with h | h
    · exact ⟨hv2 (hm1 p h).1, (hm1 p h).2⟩
    · exact ⟨(hm2 p h).1, fun hmem => (hm2 p h).2 (hv1 hmem)⟩

/-- One connected-wallet step keeps the `ExpandStep` relation, provided the
recursive expansion it may invoke does so on unvisited addresses — exactly
what the visited-set guard establishes before the call. -/
theorem walletStep_expandStep (env : Env) (D N : ℚ)
    (recur : String → CoreState → CoreState)
    (inter : List (String × Interaction)) (icw : Bool)
    (hrec : ∀ w st, w ∉ st.visitedNodes → ExpandStep D st (recur w st)) :
    ∀ (st : CoreState) (w : String),
      ExpandStep D st (walletStep env N recur inter icw st w) := by
  intro st w
  unfold walletStep
  dsimp only
  split
  · next hguard =>
    have hw : w ∉ st.visitedNodes := fun hmem => hguard.1 (List.elem_iff.mpr hmem)
    split
    · refine expandStep_trans (expandStep_of_sameVL (addNode_sameVL _ _ _ _)) (hrec w _ ?_)
      rw [(addNode_sameVL st w "wallet" _).1]
      exact hw
    · exact expandStep_of_sameVL (addNode_sameVL _ _ _ _)
  · exact expandStep_of_sameVL (sameVL_refl _)

theorem txScanFold_sameVL (env : Env) (addr : String) (s1 : CoreState)
    (cw : List String) (wi : List (String × Interaction)) (txs : List Transaction) :
    SameVL s1 (List.foldl (txScanStep env addr) ⟨s1, cw, wi⟩ txs).st :=
  foldl_rel (fun a b : TxScanAcc => SameVL a.st b.st) (fun a => sameVL_refl a.st)
    (fun hab hbc => sameVL_trans hab hbc) (txScanStep env addr) txs
    (fun acc tx _ => txScanStep_sameVL env addr acc tx) ⟨s1, cw, wi⟩

/-- The connected-wallet fold followed by the high-risk enrichment keeps the
`ExpandStep` relation. -/
theorem walletFold_expandStep (env : Env) (D N : ℚ)
    (recur : String → CoreState → CoreState)
    (hrec : ∀ w st, w ∉ st.visitedNodes → ExpandStep D st (recur w st))
    (inter : List (String × Interaction)) (icw : Bool)
    (s1 m2 : CoreState) (hm2 : SameVL s1 m2) (c : Prop) [Decidable c]
    (cw : List String) :
    ExpandStep D s1
      (connectHighRiskWallets
        (if c then List.foldl (walletStep env N recur inter icw) m2 cw else m2)) := by
  refine expandStep_trans ?_ (expandStep_of_sameVL (connectHighRiskWallets_sameVL _))
  split
  · exact expandStep_trans (expandStep_of_sameVL hm2)
      (foldl_rel (ExpandStep D) (fun s => expandStep_of_sameVL (sameVL_refl s))
        (fun hab hbc => expandStep_trans hab hbc) _ cw
        (fun st w _ => walletStep_expandStep env D N recur inter icw hrec st w) m2)
  · exact expandStep_of_sameVL hm2

/-- Master lemma for `_analyzeNodeConnections`: called on an unvisited
address, the traversal only ever expands fresh addresses, at depths below
`maxDepth`, and records each of them as visited. -/
theorem aNC_expandStep (env : Env) (D N : ℚ) :
    ∀ (fuel : ℕ) (addr : String) (depth : ℕ) (st : CoreState),
      addr ∉ st.visitedNodes →
      ExpandStep D st (analyzeNodeConnections env D N fuel addr depth st)
  | 0, addr, depth, st => fun _ => expandStep_of_sameVL (sameVL_refl _)
  | fuel + 1, addr, depth, st => fun haddr => by
    rw [analyzeNodeConnections]
    split
    · exact expandStep_of_sameVL (sameVL_refl _)
    · next hguard =>
      rw [not_or] at hguard
      have hdlt : (depth : ℚ) < D := lt_of_not_le hguard.1
      have h1 : ExpandStep D st
          { st with visitedNodes := addToSet st.visitedNodes addr,
                    expandLog := st.expandLog ++ [(addr, depth)] } := by
        refine ⟨subset_addToSet _ _, [(addr, depth)], rfl, by simp, ?_, ?_⟩
        · intro p hp
          rw [List.mem_singleton] at hp
          subst hp
          exact hdlt
        · intro p hp
          rw [List.mem_singleton] at hp
          subst hp
          exact ⟨mem_addToSet_self _ _, haddr⟩
      dsimp only
      refine expandStep_trans h1 ?_
      split
      · exact expandStep_of_sameVL (sameVL_refl _)
      · next transactions heq =>
        refine walletFold_expandStep env D N _
          (fun w st hw => aNC_expandStep env D N fuel w (depth + 1) st hw)
          _ _ _ _ ?_ _ _
        refine ⟨?_, ?_⟩ <;> dsimp only
        · rw [(analyzeTokenConnections_sameVL env addr _).1,
              (txScanFold_sameVL env addr _ _ _ _).1]
        · rw [(analyzeTokenConnections_sameVL env addr _).2,
              (txScanFold_sameVL env addr _ _ _ _).2]

/-! ## Risk-range machinery -/

theorem alookup_mem {α : Type} :
    ∀ {l : List (String × α)} {k : String} {v : α}, alookup l k = some v → (k, v) ∈ l
  | [], k, v, h => by simp [alookup] at h
  | (k0, v0) :: rest, k, v, h => by
    rw [alookup] at h
    split at h
    · next heq =>
      cases h
      have hk : k0 = k := by simpa using heq
      subst hk
      exact List.mem_cons_self _ _
    · exact List.mem_cons_of_mem _ (alookup_mem h)

theorem enum_fst_lt {α : Type} {l : List α} {p : ℕ × α} (hp : p ∈ l.enum) :
    p.1 < l.length := by
  rw [List.mem_enum_iff_getElem?] at hp
  obtain ⟨h, -⟩ := List.getElem?_eq_some.mp hp
  exact h

/-- All first-appearance positions collected by `_identifyEarlyParticipants`
are indices into the scanned transaction list. -/
theorem collectParticipants_pos_lt (addr : String) (txs : List Transaction) :
    ∀ q ∈ (collectParticipants addr txs).2, q.2 < txs.length := by
  unfold collectParticipants
  refine foldl_rel
    (fun a b : List String × List (String × ℕ) =>
      (∀ q ∈ a.2, q.2 < txs.length) → ∀ q ∈ b.2, q.2 < txs.length)
    (fun a h => h) (fun hab hbc h => hbc (hab h)) _ _ (fun acc p hp => ?_) _
    (fun q hq => absurd hq (List.not_mem_nil q))
  refine foldl_rel
    (fun a b : List String × List (String × ℕ) =>
      (∀ q ∈ a.2, q.2 < txs.length) → ∀ q ∈ b.2, q.2 < txs.length)
    (fun a h => h) (fun hab hbc h => hbc (hab h)) _ _ (fun acc part _ => ?_) _
  intro hacc q hq
  dsimp only at hq
  split at hq
  · rcases List.mem_append.mp hq with h | h
    · exact hacc q h
    · rw [List.mem_singleton] at h
      subst h
      exact enum_fst_lt hp
  · exact hacc q hq

theorem earlyBandRisk_range (p : ℕ) (hp : p ≤ 230) :
    0 ≤ earlyBandRisk p ∧ earlyBandRisk p ≤ 1 := by
  unfold earlyBandRisk
  have hq : (p : ℚ) ≤ 230 := by exact_mod_cast hp
  have h0 : (0 : ℚ) ≤ (p : ℚ) := Nat.cast_nonneg p
  split
  · next h =>
    have : (p : ℚ) < 10 := by exact_mod_cast h
    constructor <;> nlinarith
  · split
    · next h1 h2 =>
      have ha : (10 : ℚ) ≤ (p : ℚ) := by exact_mod_cast Nat.le_of_not_lt h1
      have hb : (p : ℚ) < 20 := by exact_mod_cast h2
      constructor <;> nlinarith
    · split
      · next h1 h2 h3 =>
        have ha : (20 : ℚ) ≤ (p : ℚ) := by exact_mod_cast Nat.le_of_not_lt h2
        have hb : (p : ℚ) < 30 := by exact_mod_cast h3
        constructor <;> nlinarith
      · next h1 h2 h3 =>
        have ha : (30 : ℚ) ≤ (p : ℚ) := by exact_mod_cast Nat.le_of_not_lt h3
        constructor <;> nlinarith

theorem finalizeWalletRisk_range (n : Node) :
    0 ≤ finalizeWalletRisk n ∧ finalizeWalletRisk n ≤ 1 := by
  unfold finalizeWalletRisk
  exact ⟨le_min (le_max_right _ 0) (by norm_num), min_le_right _ _⟩

theorem calculateTokenRisk_range (nodes : List Node) (token : Token) (issuer : String)
    (hn : ∀ n ∈ nodes, 0 ≤ n.riskLevel) :
    0 ≤ calculateTokenRisk nodes token issuer ∧ calculateTokenRisk nodes token issuer ≤ 1 := by
  unfold calculateTokenRisk
  dsimp only
  refine ⟨le_min ?_ (by norm_num), le_trans (min_le_right _ _) (by norm_num)⟩
  refine add_nonneg (add_nonneg ?_ ?_) ?_
  · split <;> norm_num
  · split
    · next h =>
      nlinarith [h]
    · exact le_refl 0
  · split
    · next nd hnd =>
      split
      · exact mul_nonneg (hn nd (List.mem_of_find?_eq_some hnd)) (by norm_num)
      · exact le_refl 0
    · exact le_refl 0

theorem walletRiskTryBody_range (env : Env) (m : Option String) (a : String) (r : ℚ)
    (h : walletRiskTryBody env m a = some r) : 0 ≤ r ∧ r ≤ 1 := by
  unfold walletRiskTryBody at h
  rcases hinfo : env.getAccountInfo a with _ | info <;>
    rw [hinfo, Option.bind_eq_bind'] at h
  · exact absurd h (by simp)
  rw [Option.some_bind'] at h
  rcases htxs : env.getAccountTransactions a 10 with _ | txs <;>
    rw [htxs, Option.bind_eq_bind'] at h
  · exact absurd h (by simp)
  rw [Option.some_bind'] at h
  rcases htoks : env.getIssuedTokens a with _ | toks <;>
    rw [htoks, Option.bind_eq_bind'] at h
  · exact absurd h (by simp)
  rw [Option.some_bind'] at h
  dsimp only at h
  split at h
  · exact absurd h (by simp)
  rw [Option.pure_def, Option.some.injEq] at h
  subst h
  refine ⟨le_min ?_ (by norm_num), le_trans (min_le_right _ _) (by norm_num)⟩
  refine add_nonneg (add_nonneg (add_nonneg (add_nonneg (add_nonneg ?_ ?_) ?_) ?_) ?_) ?_
  · rcases info.sequence with _ | n
    · exact le_refl 0
    · dsimp only
      repeat' split
      all_goals norm_num
  · split
    · next h =>
      have hc : (txs.length : ℚ) ≤ 10 := by exact_mod_cast Nat.le_of_lt h
      nlinarith
    · exact le_refl 0
  · split
    · next h =>
      refine mul_nonneg (by norm_num) (le_min (by norm_num) ?_)
      have hc : (3 : ℚ) < (toks.length : ℚ) := by exact_mod_cast h.2
      have : (0 : ℚ) ≤ (toks.length : ℚ) - 3 := by linarith
      positivity
    · exact le_refl 0
  · split
    · next h =>
      refine le_min (by norm_num) ?_
      have : (0 : ℚ) ≤ ((checkCreatorHistory env a).previousRugs : ℚ) := Nat.cast_nonneg _
      positivity
    · exact le_refl 0
  · split
    · next h =>
      refine le_min (by norm_num) ?_
      positivity
    · exact le_refl 0
  · rcases m with _ | mm
    · exact le_refl 0
    · dsimp only
      repeat' split
      all_goals norm_num

theorem calculateWalletRisk_range (env : Env) (m : Option String) (a : String) :
    0 ≤ calculateWalletRisk env m a ∧ calculateWalletRisk env m a ≤ 1 := by
  unfold calculateWalletRisk
  split
  · norm_num
  · split
    · next r heq => exact walletRiskTryBody_range env m a r heq
    · norm_num

/-- Every node stored in the graph carries a risk level in `[0, 1]`. -/
def RisksIn01 (st : CoreState) : Prop :=
  ∀ n ∈ st.networkData.nodes, 0 ≤ n.riskLevel ∧ n.riskLevel ≤ 1

theorem addNode_risks (st : CoreState) (id ty : String) (props : NodeProps)
    (hp : 0 ≤ (props.riskLevel).getD 0 ∧ (props.riskLevel).getD 0 ≤ 1)
    (h : RisksIn01 st) : RisksIn01 (addNode st id ty props) := by
  unfold addNode
  split
  · intro n hn
    rcases mem_updateFirst hn with hmem | ⟨y, hy, -, rfl⟩
    · exact h n hmem
    · split
      · exact h y hy
      · exact h y hy
  · intro n hn
    rcases List.mem_append.mp hn with hmem | hmem
    · exact h n hmem
    · rw [List.mem_singleton] at hmem
      subst hmem
      exact hp

theorem addConnection_risks (st : CoreState) (s t : String) (p : ConnProps)
    (h : RisksIn01 st) : RisksIn01 (addConnection st s t p) := fun n hn =>
  h n ((addConnection_frame st s t p).1 ▸ hn)

theorem txScanStep_nodes (env : Env) (addr : String) (acc : TxScanAcc) (tx : Transaction) :
    (txScanStep env addr acc tx).st.networkData.nodes = acc.st.networkData.nodes := by
  unfold txScanStep
  repeat' split
  all_goals first
    | rfl
    | exact (addConnection_frame _ _ _ _).1

theorem connectRelatedWallets_nodes (st : CoreState) :
    (connectRelatedWallets st).networkData.nodes = st.networkData.nodes := by
  unfold connectRelatedWallets
  dsimp only
  split
  · rfl
  · refine Eq.trans
      (foldl_rel (fun a b : CoreState => b.networkData.nodes = a.networkData.nodes)
        (fun s => rfl) (fun hab hbc => hbc.trans hab) _ _ (fun st p _ => ?_) _)
      (Eq.trans
        (foldl_rel (fun a b : CoreState => b.networkData.nodes = a.networkData.nodes)
          (fun s => rfl) (fun hab hbc => hbc.trans hab) _ _ (fun st p _ => ?_) _)
        (foldl_rel (fun a b : CoreState => b.networkData.nodes = a.networkData.nodes)
          (fun s => rfl) (fun hab hbc => hbc.trans hab) _ _ (fun st p _ => ?_) _))
    · split
      · refine foldl_rel (fun a b : CoreState => b.networkData.nodes = a.networkData.nodes)
          (fun s => rfl) (fun hab hbc => hbc.trans hab) _ _ (fun st q _ => ?_) _
        repeat' split
        all_goals first
          | rfl
          | exact (addConnection_frame _ _ _ _).1
      · rfl
    · exact (addConnection_frame _ _ _ _).1
    · repeat' split
      all_goals first
        | rfl
        | exact (addConnection_frame _ _ _ _).1

theorem connectHighRiskWallets_nodes (st : CoreState) :
    (connectHighRiskWallets st).networkData.nodes = st.networkData.nodes := by
  unfold connectHighRiskWallets
  dsimp only
  split
  · rfl
  · refine Eq.trans (connectRelatedWallets_nodes _)
      (Eq.trans
        (foldl_rel (fun a b : CoreState => b.networkData.nodes = a.networkData.nodes)
          (fun s => rfl) (fun hab hbc => hbc.trans hab) _ _ (fun st w _ => ?_) _)
        (foldl_rel (fun a b : CoreState => b.networkData.nodes = a.networkData.nodes)
          (fun s => rfl) (fun hab hbc => hbc.trans hab) _ _ (fun st p _ => ?_) _))
    · repeat' split
      all_goals first
        | rfl
        | exact (addConnection_frame _ _ _ _).1
    · exact (addConnection_frame _ _ _ _).1

theorem tokenConnStep_risks (env : Env) (addr : String) (st : CoreState) (token : Token)
    (h : RisksIn01 st) : RisksIn01 (tokenConnStep env addr st token) := by
  unfold tokenConnStep
  dsimp only
  split
  · exact h
  · refine addConnection_risks _ _ _ _ (addNode_risks _ _ _ _ ?_ h)
    exact calculateTokenRisk_range st.networkData.nodes token addr (fun n hn => (h n hn).1)

theorem analyzeTokenConnections_risks (env : Env) (addr : String) (st : CoreState)
    (h : RisksIn01 st) : RisksIn01 (analyzeTokenConnections env addr st) := by
  unfold analyzeTokenConnections
  dsimp only
  split
  · exact h
  · exact foldl_rel (fun a b : CoreState => RisksIn01 a → RisksIn01 b)
      (fun s hs => hs) (fun hab hbc hs => hbc (hab hs)) _ _
      (fun st t _ hs => tokenConnStep_risks env addr st t hs) _ h

theorem connectRelatedWallets_risks (st : CoreState) (h : RisksIn01 st) :
    RisksIn01 (connectRelatedWallets st) := fun n hn =>
  h n (connectRelatedWallets_nodes st ▸ hn)

theorem connectHighRiskWallets_risks (st : CoreState) (h : RisksIn01 st) :
    RisksIn01 (connectHighRiskWallets st) := fun n hn =>
  h n (connectHighRiskWallets_nodes st ▸ hn)

theorem walletStep_risks (env : Env) (N : ℚ) (recur : String → CoreState → CoreState)
    (inter : List (String × Interaction)) (icw : Bool)
    (hrec : ∀ w st, RisksIn01 st → RisksIn01 (recur w st)) :
    ∀ (st : CoreState) (w : String), RisksIn01 st →
      RisksIn01 (walletStep env N recur inter icw st w) := by
  intro st w h
  unfold walletStep
  dsimp only
  split
  · have hadd : RisksIn01 (addNode st w "wallet"
        { radius := some (if HIGH_RISK_ADDRESSES.contains (baseAddress w) then 12
            else 8 + calculateWalletRisk env st.networkData.mainNode w * 2),
          riskLevel := some (if HIGH_RISK_ADDRESSES.contains (baseAddress w) then 1.0
            else calculateWalletRisk env st.networkData.mainNode w),
          walletType := some (if HIGH_RISK_ADDRESSES.contains (baseAddress w) then "high-risk"
            else if (calculateWalletConnectionRisk env st.networkData.mainNode w).wtype ≠ ""
              then (calculateWalletConnectionRisk env st.networkData.mainNode w).wtype
              else "standard"),
          highActivity :=
            decide ((calculateWalletConnectionRisk env st.networkData.mainNode w).activityRisk
              > 0.6),
          potentialEarly :=
            decide ((calculateWalletConnectionRisk env st.networkData.mainNode w).ageRisk < 0.3)
              && decide (calculateWalletRisk env st.networkData.mainNode w > 0.5),
          isHighRisk := HIGH_RISK_ADDRESSES.contains (baseAddress w),
          isCreatorWallet := icw,
          enhancedRiskData := some (calculateWalletConnectionRisk env st.networkData.mainNode w),
          interactionData := alookup inter w,
          buyingPattern := some (analyzeBuyingPattern (alookup inter w)) }) := by
      refine addNode_risks _ _ _ _ ?_ h
      dsimp only
      split
      · norm_num
      · exact calculateWalletRisk_range env st.networkData.mainNode w
    split
    · exact hrec w _ hadd
    · exact hadd
  · exact h

theorem txScanFold_nodes (env : Env) (addr : String) (s1 : CoreState)
    (cw : List String) (wi : List (String × Interaction)) (txs : List Transaction) :
    (List.foldl (txScanStep env addr) ⟨s1, cw, wi⟩ txs).st.networkData.nodes =
      s1.networkData.nodes :=
  foldl_rel (fun a b : TxScanAcc => b.st.networkData.nodes = a.st.networkData.nodes)
    (fun _ => rfl) (fun hab hbc => hbc.trans hab) (txScanStep env addr) txs
    (fun acc tx _ => txScanStep_nodes env addr acc tx) ⟨s1, cw, wi⟩

/-- The connected-wallet fold followed by the high-risk enrichment keeps all
node risks inside `[0, 1]`. -/
theorem walletFold_risks (env : Env) (N : ℚ) (recur : String → CoreState → CoreState)
    (hrec : ∀ w st, RisksIn01 st → RisksIn01 (recur w st))
    (inter : List (String × Interaction)) (icw : Bool)
    (m2 : CoreState) (hm2 : RisksIn01 m2) (c : Prop) [Decidable c] (cw : List String) :
    RisksIn01 (connectHighRiskWallets
      (if c then List.foldl (walletStep env N recur inter icw) m2 cw else m2)) := by
  refine connectHighRiskWallets_risks _ ?_
  split
  · exact foldl_rel (fun a b : CoreState => RisksIn01 a → RisksIn01 b)
      (fun s hs => hs) (fun hab hbc hs => hbc (hab hs)) _ cw
      (fun st w _ hs => walletStep_risks env N recur inter icw hrec st w hs) m2 hm2
  · exact hm2

/-- Master risk-range lemma for `_analyzeNodeConnections`: the recursive
expansion keeps every stored risk level inside `[0, 1]`. -/
theorem aNC_risks (env : Env) (D N : ℚ) :
    ∀ (fuel : ℕ) (addr : String) (depth : ℕ) (st : CoreState),
      RisksIn01 st → RisksIn01 (analyzeNodeConnections env D N fuel addr depth st)
  | 0, addr, depth, st => fun h => h
  | fuel + 1, addr, depth, st => fun h => by
    rw [analyzeNodeConnections]
    split
    · exact h
    · dsimp only
      split
      · exact h
      · next transactions heq =>
        refine walletFold_risks env N _
          (fun w st hs => aNC_risks env D N fuel w (depth + 1) st hs) _ _ _ ?_ _ _
        intro n hn
        refine analyzeTokenConnections_risks env addr _ (fun m hm => h m ?_) n hn
        rw [txScanFold_nodes] at hm
        exact hm

theorem epParticipantStep_risks (tokenId : String) (earlyTxCount : ℕ)
    (positions : List (String × ℕ)) (hpos : ∀ q ∈ positions, q.2 ≤ 230)
    (st : CoreState) (participant : String) (h : RisksIn01 st) :
    RisksIn01 (epParticipantStep tokenId earlyTxCount positions st participant) := by
  unfold epParticipantStep
  dsimp only
  refine addConnection_risks _ _ _ _ (addNode_risks _ _ _ _ ?_ h)
  refine earlyBandRisk_range _ ?_
  rcases halk : alookup positions participant with _ | v
  · simp
  · exact hpos (participant, v) (alookup_mem halk)

theorem setEarlyParticipantCount_risks (tokenId : String) (c : ℕ) (nodes : List Node)
    (h : ∀ n ∈ nodes, 0 ≤ n.riskLevel ∧ n.riskLevel ≤ 1) :
    ∀ n ∈ setEarlyParticipantCount tokenId c nodes, 0 ≤ n.riskLevel ∧ n.riskLevel ≤ 1 := by
  intro n hn
  rcases mem_updateFirst hn with hmem | ⟨y, hy, -, rfl⟩
  · exact h n hmem
  · exact h y hy

theorem epTokenLoop_risks (env : Env) (addr : String) :
    ∀ (toks : List Token) (st : CoreState), RisksIn01 st →
      RisksIn01 (epTokenLoop env addr toks st)
  | [], st => fun h => h
  | token :: rest, st => fun h => by
    rw [epTokenLoop]
    split
    · exact epTokenLoop_risks env addr rest st h
    · split
      · exact h
      · next transactions heq =>
        dsimp only
        refine epTokenLoop_risks env addr rest _ ?_
        have hpos : ∀ (txs : List Transaction) (q : String × ℕ),
            q ∈ (collectParticipants addr (List.take 50 txs)).2 → q.2 ≤ 230 := by
          intro txs q hq
          have h1 := collectParticipants_pos_lt addr _ q hq
          have h2 := List.length_take_le 50 txs
          omega
        exact setEarlyParticipantCount_risks _ _ _
          (foldl_rel (fun a b : CoreState => RisksIn01 a → RisksIn01 b)
            (fun s hs => hs) (fun hab hbc hs => hbc (hab hs)) _ _
            (fun st part _ hs =>
              epParticipantStep_risks _ _ _ (fun q hq => hpos _ q hq) st part hs) _ h)

theorem identifyEarlyParticipants_risks (env : Env) (addr : String) (st : CoreState)
    (h : RisksIn01 st) : RisksIn01 (identifyEarlyParticipants env addr st) := by
  unfold identifyEarlyParticipants
  split
  · exact h
  · exact epTokenLoop_risks env addr _ st h

theorem pass1Node_range (k : Node) (hk : 0 ≤ k.riskLevel ∧ k.riskLevel ≤ 1) :
    0 ≤ (pass1Node k).riskLevel ∧ (pass1Node k).riskLevel ≤ 1 := by
  unfold pass1Node
  split
  · exact finalizeWalletRisk_range k
  · exact hk

/-- The final aggregation pass keeps every node risk in `[0, 1]`: pass 1
clamps explicitly and the pass-2 interconnection bonus is capped at `1`. -/
theorem calculateFinalRisk_risks (st : CoreState) (h : RisksIn01 st) :
    RisksIn01 (calculateFinalRisk st) := by
  unfold calculateFinalRisk
  intro n hn
  rw [List.mem_map] at hn
  obtain ⟨m, hm, rfl⟩ := hn
  rw [List.mem_map] at hm
  obtain ⟨k, hk, rfl⟩ := hm
  have h1 := pass1Node_range k (h k hk)
  dsimp only
  split
  · split
    · refine ⟨le_min (add_nonneg h1.1 (le_min (by norm_num) ?_)) (by norm_num),
        min_le_right _ _⟩
      exact mul_nonneg (Nat.cast_nonneg _) (by norm_num)
    · exact h1
  · exact h1

/-- Shared full-run property: over an entire `analyzeNetwork` run the
expansion log holds pairwise-distinct addresses, each of them visited and
recorded below the clamped `maxDepth`, and every stored risk level lies in
`[0, 1]`. -/
theorem analyzeNetwork_core_props (env : Env) (prev : AnalyzerState) (address : String)
    (d : Option ℚ) :
    ((analyzeNetwork env prev address d).core.expandLog.map Prod.fst).Nodup ∧
    (∀ p ∈ (analyzeNetwork env prev address d).core.expandLog,
        p.1 ∈ (analyzeNetwork env prev address d).core.visitedNodes ∧
        (p.2 : ℚ) < (analyzeNetwork env prev address d).maxDepth) ∧
    RisksIn01 (analyzeNetwork env prev address d).core := by
  have hmain : ∀ (D N : ℚ) (fuel : ℕ) (c1 : CoreState),
      c1.visitedNodes = [] → c1.expandLog = [] → RisksIn01 c1 →
      (((calculateFinalRisk (identifyEarlyParticipants env address
          (analyzeNodeConnections env D N fuel address 0 c1))).expandLog.map
            Prod.fst).Nodup ∧
       (∀ p ∈ (calculateFinalRisk (identifyEarlyParticipants env address
            (analyzeNodeConnections env D N fuel address 0 c1))).expandLog,
          p.1 ∈ (calculateFinalRisk (identifyEarlyParticipants env address
            (analyzeNodeConnections env D N fuel address 0 c1))).visitedNodes ∧
          (p.2 : ℚ) < D) ∧
       RisksIn01 (calculateFinalRisk (identifyEarlyParticipants env address
          (analyzeNodeConnections env D N fuel address 0 c1)))) := by
    intro D N fuel c1 hv hl hr
    have hne : address ∉ c1.visitedNodes := by
      rw [hv]
      exact List.not_mem_nil _
    obtain ⟨hsub, L, hlog, hnd, hdep, hmem⟩ := aNC_expandStep env D N fuel address 0 c1 hne
    have hvl : SameVL (analyzeNodeConnections env D N fuel address 0 c1)
        (calculateFinalRisk (identifyEarlyParticipants env address
          (analyzeNodeConnections env D N fuel address 0 c1))) :=
      sameVL_trans (identifyEarlyParticipants_sameVL env address _)
        (calculateFinalRisk_sameVL _)
    refine ⟨?_, ?_, ?_⟩
    · rw [hvl.2, hlog, hl, List.nil_append]
      exact hnd
    · intro p hp
      rw [hvl.2, hlog, hl, List.nil_append] at hp
      refine ⟨?_, hdep p hp⟩
      rw [hvl.1]
      exact (hmem p hp).1
    · exact calculateFinalRisk_risks _ (identifyEarlyParticipants_risks env address _
        (aNC_risks env D N fuel address 0 c1 hr))
  unfold analyzeNetwork
  rcases d with _ | dv <;> dsimp only <;> split
  · exact ⟨List.nodup_nil, fun p hp => absurd hp (List.not_mem_nil p),
      fun n hn => absurd hn (List.not_mem_nil n)⟩
  · refine hmain _ _ _ _ ?_ ?_ ?_
    · rw [(addNode_sameVL _ _ _ _).1]
      rfl
    · rw [(addNode_sameVL _ _ _ _).2]
      rfl
    · refine addNode_risks _ _ _ _ (by norm_num) ?_
      exact fun n hn => absurd hn (List.not_mem_nil n)
  · exact ⟨List.nodup_nil, fun p hp => absurd hp (List.not_mem_nil p),
      fun n hn => absurd hn (List.not_mem_nil n)⟩
  · refine hmain _ _ _ _ ?_ ?_ ?_
    · rw [(addNode_sameVL _ _ _ _).1]
      rfl
    · rw [(addNode_sameVL _ _ _ _).2]
      rfl
    · refine addNode_risks _ _ _ _ (by norm_num) ?_
      exact fun n hn => absurd hn (List.not_mem_nil n)

/-! ## Concrete runs used as witnesses and counterexamples -/

/-- A minimal deterministic ledger: every endpoint answers, nothing is
found. -/
def env0 : Env :=
  { isValidAddress := fun _ => true
    getAccountInfo := fun _ => none
    getAccountTransactions := fun _ _ => some []
    getIssuedTokens := fun _ => some []
    fetchTokenFirstTxs := fun _ _ _ => none
    fetchEarlyTransactions := fun _ _ => none
    fetchRecentTransactions := fun _ _ => none
    getAccountTrustlines := fun _ => none
    now := 10, yearOf := fun _ => 2015, yearStartMs := fun _ => 0
    toLocaleDateString := fun _ => "D", jsPow := fun _ _ => 0, jsSqrt := fun _ => 0 }

/-- A cyclic transaction graph: `rA` pays `rB` and `rB` pays `rA`. -/
def envCyc : Env :=
  { env0 with getAccountTransactions := fun a _ =>
      if a = "rA" then some [{ txType := some "Payment", destination := some "rB",
                               amount := some (.drops 1000000) }]
      else if a = "rB" then some [{ txType := some "Payment", destination := some "rA" }]
      else some [] }

/-- A seed that issued two tokens. -/
def envTok : Env :=
  { env0 with
    getIssuedTokens := fun a =>
      if a = "rMain" then some [{ currency := "ABC", amount := some 100 },
                                { currency := "XYZ", amount := some 100 }]
      else some [],
    fetchTokenFirstTxs := fun _ _ _ => some [{ date := some 5 }] }

/-- The state right after the seed insertion of `analyzeNetwork`. -/
def stSeed : CoreState :=
  addNode {} "rMain" "wallet" { radius := some 15, riskLevel := some 0 }

/-- **C3.**  Within one analysis run the traversal never expands the same
account id twice: over a full `analyzeNetwork` run — including on cyclic
seed transaction graphs, where the expansion still terminates — the
expansion log (one entry per `_analyzeNodeConnections` body that runs past
the entry guard) holds pairwise-distinct addresses, and every expanded
address is in the visited set, having been added on entry. -/
theorem traversal_never_expands_twice :
    ∀ (env : Env) (prev : AnalyzerState) (address : String) (d : Option ℚ),
      (((analyzeNetwork env prev address d).core.expandLog.map Prod.fst).Nodup) ∧
      ∀ p ∈ (analyzeNetwork env prev address d).core.expandLog,
        p.1 ∈ (analyzeNetwork env prev address d).core.visitedNodes :=
  fun env prev address d =>
    ⟨(analyzeNetwork_core_props env prev address d).1,
     fun p hp => ((analyzeNetwork_core_props env prev address d).2.1 p hp).1⟩

section
attribute [local semireducible] Rat.add Rat.sub Rat.mul Rat.inv Rat.ofScientific

set_option maxRecDepth 1000000 in
theorem traversal_never_expands_twice_witness :
    ("rA", 0) ∈ (analyzeNetwork envCyc {} "rA" none).core.expandLog ∧
    "rA" ∈ (analyzeNetwork envCyc {} "rA" none).core.visitedNodes :=
  ⟨by decide, (traversal_never_expands_twice envCyc {} "rA" none).2 ("rA", 0) (by decide)⟩

end

/-- **C4 (amended).**  The depth half of the claim holds: no account is
expanded at a depth at or above the configured `maxDepth` — every entry of
the expansion log of a full run records a depth strictly below the run's
clamped `maxDepth`.  The node-count half of the claim is false; see
`maxNodes_exceeded_by_token_discovery`. -/
theorem expansion_depth_bounded :
    ∀ (env : Env) (prev : AnalyzerState) (address : String) (d : Option ℚ),
      ∀ p ∈ (analyzeNetwork env prev address d).core.expandLog,
        (p.2 : ℚ) < (analyzeNetwork env prev address d).maxDepth :=
  fun env prev address d p hp =>
    ((analyzeNetwork_core_props env prev address d).2.1 p hp).2

section
attribute [local semireducible] Rat.add Rat.sub Rat.mul Rat.inv Rat.ofScientific

set_option maxRecDepth 1000000 in
theorem expansion_depth_bounded_witness :
    ("rA", 0) ∈ (analyzeNetwork envCyc {} "rA" none).core.expandLog ∧
    ((0 : ℕ) : ℚ) < (analyzeNetwork envCyc {} "rA" none).maxDepth :=
  ⟨by decide, expansion_depth_bounded envCyc {} "rA" none ("rA", 0) (by decide)⟩

set_option maxRecDepth 1000000 in
/-- **C4 counterexample.**  The token-discovery sub-step
(`_analyzeTokenConnections`) adds one node per issued token without any
`maxNodes` check: expanding a seed that issued two tokens with
`maxNodes = 2` leaves three nodes in the graph, exceeding the bound. -/
theorem maxNodes_exceeded_by_token_discovery :
    (analyzeNodeConnections envTok 2 2 3 "rMain" 0 stSeed).networkData.nodes.length = 3 ∧
    (analyzeNodeConnections envTok 2 2 3 "rMain" 0 stSeed).nodeCount = 3 ∧
    ¬ ((3 : ℚ) ≤ 2) := ⟨by rfl, by rfl, by norm_num⟩

end

/-- **C5.**  Every stored node risk level lies in the closed interval
`[0, 1]`, both after the incremental at-discovery pass — an
`_analyzeNodeConnections` step from any state whose stored risks already
lie in `[0, 1]` — and after the final whole-graph aggregation pass of a
full run, for arbitrary input magnitudes. -/
theorem riskLevels_in_unit_interval :
    (∀ (env : Env) (D N : ℚ) (fuel : ℕ) (addr : String) (depth : ℕ) (st : CoreState),
       RisksIn01 st →
       ∀ n ∈ (analyzeNodeConnections env D N fuel addr depth st).networkData.nodes,
         0 ≤ n.riskLevel ∧ n.riskLevel ≤ 1) ∧
    (∀ (env : Env) (prev : AnalyzerState) (address : String) (d : Option ℚ),
       ∀ n ∈ (analyzeNetwork env prev address d).core.networkData.nodes,
         0 ≤ n.riskLevel ∧ n.riskLevel ≤ 1) :=
  ⟨fun env D N fuel addr depth st h => aNC_risks env D N fuel addr depth st h,
   fun env prev address d => (analyzeNetwork_core_props env prev address d).2.2⟩

section
attribute [local semireducible] Rat.add Rat.sub Rat.mul Rat.inv Rat.ofScientific

/-- A fallback node for `List.headD`. -/
def node0 : Node := { id := "x", ntype := "wallet" }

set_option maxRecDepth 1000000 in
theorem riskLevels_in_unit_interval_witness :
    RisksIn01 stSeed ∧
    (0 ≤ ((analyzeNodeConnections envTok 2 2 3 "rMain" 0
            stSeed).networkData.nodes.headD node0).riskLevel ∧
      ((analyzeNodeConnections envTok 2 2 3 "rMain" 0
            stSeed).networkData.nodes.headD node0).riskLevel ≤ 1) ∧
    (0 ≤ (((analyzeNetwork env0 {} "rZ" none).core.networkData.nodes).headD
            node0).riskLevel ∧
      (((analyzeNetwork env0 {} "rZ" none).core.networkData.nodes).headD
            node0).riskLevel ≤ 1) :=
  ⟨by unfold RisksIn01; decide,
   riskLevels_in_unit_interval.1 envTok 2 2 3 "rMain" 0 stSeed
     (by unfold RisksIn01; decide) _ (by decide),
   riskLevels_in_unit_interval.2 env0 {} "rZ" none _ (by decide)⟩

end

/-! ## C6 — known-high-risk wallets pin to risk `1` -/

theorem pass1Node_id (x : Node) : (pass1Node x).id = x.id := by
  unfold pass1Node
  split <;> rfl

theorem pass1Node_ntype (x : Node) : (pass1Node x).ntype = x.ntype := by
  unfold pass1Node
  split <;> rfl

/-- A wallet node on the known-high-risk list leaves pass 1 with risk
exactly `1`. -/
theorem pass1Node_highRisk (k : Node) (hty : k.ntype = "wallet")
    (hhr : baseAddress k.id ∈ HIGH_RISK_ADDRESSES) : (pass1Node k).riskLevel = 1 := by
  unfold pass1Node
  rw [if_pos (by simp [hty])]
  show finalizeWalletRisk k = 1
  unfold finalizeWalletRisk
  have hHR : isHighRiskNode k = true := by
    unfold isHighRiskNode
    simp
    exact Or.inr hhr
  simp only [hHR, if_true]
  norm_num

/-- After `_calculateFinalRisk`, every node derives from a stored node with
the same id and type, and a known-high-risk wallet always carries risk `1`
— the pass-2 interconnection bonus, applied after the clamp, cannot lift it
above `1`. -/
theorem cFR_node_shape (st : CoreState) :
    ∀ n ∈ (calculateFinalRisk st).networkData.nodes,
      ∃ k ∈ st.networkData.nodes, n.id = k.id ∧ n.ntype = k.ntype ∧
        (k.ntype = "wallet" → baseAddress k.id ∈ HIGH_RISK_ADDRESSES → n.riskLevel = 1) := by
  intro n hn
  unfold calculateFinalRisk at hn
  rw [List.mem_map] at hn
  obtain ⟨m, hm, rfl⟩ := hn
  rw [List.mem_map] at hm
  obtain ⟨k, hk, rfl⟩ := hm
  refine ⟨k, hk, ?_, ?_, ?_⟩
  · split
    · dsimp only
      split
      · exact pass1Node_id k
      · exact pass1Node_id k
    · exact pass1Node_id k
  · split
    · dsimp only
      split
      · exact pass1Node_ntype k
      · exact pass1Node_ntype k
    · exact pass1Node_ntype k
  · intro hty hhr
    have h1 := pass1Node_highRisk k hty hhr
    have haux : ∀ c : ℕ, min ((1 : ℚ) + min 0.3 ((c : ℚ) * 0.05)) 1 = 1 := by
      intro c
      refine min_eq_right ?_
      have hb : (0 : ℚ) ≤ min 0.3 ((c : ℚ) * 0.05) :=
        le_min (by norm_num) (mul_nonneg (Nat.cast_nonneg c) (by norm_num))
      linarith
    split
    · dsimp only
      split
      · rw [h1]
        exact haux _
      · exact h1
    · exact h1

/-- **C6.**  Every wallet node whose base address (the id with any
`':'`-delimited tag suffix stripped) is on the known-high-risk list — seed
or discovered neighbor — has `riskLevel` exactly `1` after the final
aggregation pass, regardless of all other accumulated factors, including
the interconnection bonus applied after the per-node clamp. -/
theorem known_highRisk_wallet_final_risk_one :
    (∀ (st : CoreState), ∀ n ∈ (calculateFinalRisk st).networkData.nodes,
       n.ntype = "wallet" → baseAddress n.id ∈ HIGH_RISK_ADDRESSES → n.riskLevel = 1) ∧
    (∀ (env : Env) (prev : AnalyzerState) (address : String) (d : Option ℚ),
       ∀ n ∈ (analyzeNetwork env prev address d).core.networkData.nodes,
         n.ntype = "wallet" → baseAddress n.id ∈ HIGH_RISK_ADDRESSES → n.riskLevel = 1) := by
  have hbase : ∀ (st : CoreState), ∀ n ∈ (calculateFinalRisk st).networkData.nodes,
      n.ntype = "wallet" → baseAddress n.id ∈ HIGH_RISK_ADDRESSES → n.riskLevel = 1 := by
    intro st n hn hty hhr
    obtain ⟨k, hk, hid, htyk, hrisk⟩ := cFR_node_shape st n hn
    exact hrisk (htyk ▸ hty) (hid ▸ hhr)
  refine ⟨hbase, ?_⟩
  intro env prev address d
  unfold analyzeNetwork
  rcases d with _ | dv <;> dsimp only <;> split
  · exact fun n hn => absurd hn (List.not_mem_nil n)
  · exact fun n hn => hbase _ n hn
  · exact fun n hn => absurd hn (List.not_mem_nil n)
  · exact fun n hn => hbase _ n hn

/-- A store holding one known-high-risk wallet. -/
def stC6 : CoreState :=
  addNode {} "rHYTJDFrbCU1i2yCENTSEgVFJUMWuFqeQj" "wallet" { riskLevel := some 0.2 }

section
attribute [local semireducible] Rat.add Rat.sub Rat.mul Rat.inv Rat.ofScientific

theorem known_highRisk_wallet_final_risk_one_witness :
    ((calculateFinalRisk stC6).networkData.nodes.headD node0 ∈
        (calculateFinalRisk stC6).networkData.nodes ∧
      ((calculateFinalRisk stC6).networkData.nodes.headD node0).ntype = "wallet" ∧
      baseAddress ((calculateFinalRisk stC6).networkData.nodes.headD node0).id ∈
        HIGH_RISK_ADDRESSES) ∧
    ((calculateFinalRisk stC6).networkData.nodes.headD node0).riskLevel = 1 :=
  ⟨⟨by decide, by decide, by decide⟩,
   known_highRisk_wallet_final_risk_one.1 stC6 _ (by decide) (by decide) (by decide)⟩

end

/-! ## C7 — the whole-graph risk metric -/

/-- **C7 (amended).**  `metrics.riskScore` after the final pass equals
`round(totalRisk / n × 100 × min(n, 10)/10)` where `totalRisk` is the sum
of the **pass-1** per-node risks (clamped wallet aggregates and stored
token risks, accumulated *before* the pass-2 interconnection bonus mutates
the nodes) — not the mean of the final `riskLevel` values; `0` on an empty
graph.  The claimed mean-of-final-risks formula is refuted by
`riskScore_not_mean_of_final_risks`. -/
theorem riskScore_formula :
    ∀ st : CoreState,
      (calculateFinalRisk st).metrics.riskScore =
        (if 0 < st.networkData.nodes.length then
          jsRound ((st.totalRisk + pass1TotalDelta st.networkData.nodes) /
              (st.networkData.nodes.length : ℚ) * 100 *
              (min (st.networkData.nodes.length : ℚ) 10 / 10))
        else 0) := by
  intro st
  unfold calculateFinalRisk
  dsimp only
  rw [List.length_map, List.length_map]

/-- A main node `rM` with two first-level wallets `rA`, `rB` that are also
linked to each other. -/
def stC7 : CoreState :=
  let st : CoreState := addNode
    { networkData := { mainNode := some "rM" } } "rM" "wallet" {}
  let st := addNode st "rA" "wallet" {}
  let st := addNode st "rB" "wallet" {}
  let st := addConnection st "rM" "rA" {}
  let st := addConnection st "rM" "rB" {}
  addConnection st "rA" "rB" {}

section
attribute [local semireducible] Rat.add Rat.sub Rat.mul Rat.inv Rat.ofScientific

/-- **C7 counterexample.**  On a triangle of zero-risk wallets the stored
`riskScore` is `0` (accumulated before the interconnection bonus), while
the claimed `round(meanFinalRisk × 100 × min(n, 10)/10)` — with the mean
taken over the final, bonus-adjusted `riskLevel` values — is `1`. -/
theorem riskScore_not_mean_of_final_risks :
    (calculateFinalRisk stC7).metrics.riskScore = 0 ∧
    jsRound ((((calculateFinalRisk stC7).networkData.nodes.map
          (fun n => n.riskLevel)).sum /
        (((calculateFinalRisk stC7).networkData.nodes.length : ℕ) : ℚ)) * 100 *
        (min (((calculateFinalRisk stC7).networkData.nodes.length : ℕ) : ℚ) 10 / 10)) = 1 ∧
    ¬ ((0 : ℤ) = 1) := ⟨by decide, by decide, by decide⟩

end

/-! ## C8 — determinism -/

/-- **C8.**  Two fresh runs over the same seed with the same configuration
and the same deterministic ledger environment produce identical results —
`analyzeNetwork` resets all carried state, so its output does not depend on
the previous analyzer state at all — and the hashed pseudo-issue-date
fallback is a pure function of the token's currency and issuer. -/
theorem analysis_deterministic :
    (∀ (env : Env) (prev1 prev2 : AnalyzerState) (address : String) (d : Option ℚ),
        analyzeNetwork env prev1 address d = analyzeNetwork env prev2 address d) ∧
    (∀ (env : Env) (t1 t2 : Token), t1.currency = t2.currency → t1.issuer = t2.issuer →
        estimateIssueDate env t1 = estimateIssueDate env t2) := by
  constructor
  · intro env prev1 prev2 address d
    rfl
  · intro env t1 t2 hc hi
    unfold estimateIssueDate
    rw [hc, hi]

theorem analysis_deterministic_witness :
    (analyzeNetwork env0 { maxDepth := 3, findings := [] } "rZ" none =
      analyzeNetwork env0 { maxDepth := 1 } "rZ" none) ∧
    ({ currency := "ABC", issuer := "rI", amount := some 5 } : Token).currency =
      ({ currency := "ABC", issuer := "rI", amount := some 7 } : Token).currency ∧
    ({ currency := "ABC", issuer := "rI", amount := some 5 } : Token).issuer =
      ({ currency := "ABC", issuer := "rI", amount := some 7 } : Token).issuer ∧
    estimateIssueDate env0 { currency := "ABC", issuer := "rI", amount := some 5 } =
      estimateIssueDate env0 { currency := "ABC", issuer := "rI", amount := some 7 } :=
  ⟨analysis_deterministic.1 env0 _ _ "rZ" none, rfl, rfl,
   analysis_deterministic.2 env0 _ _ rfl rfl⟩

/-! ## C9 — the depth clamp -/

/-- **C9.**  `setMaxDepth d` stores exactly `min(max(1, d), 3)` — any
requested depth above `3` is silently reduced to `3` — and `analyzeNetwork`
applies the same clamp whenever a non-null `maxDepth` argument is passed. -/
theorem setMaxDepth_clamps :
    (∀ (st : AnalyzerState) (d : ℚ), (setMaxDepth st d).maxDepth = min (max 1 d) 3) ∧
    (∀ (env : Env) (prev : AnalyzerState) (address : String) (d : ℚ),
        (analyzeNetwork env prev address (some d)).maxDepth = min (max 1 d) 3) := by
  constructor
  · intro st d
    rfl
  · intro env prev address d
    unfold analyzeNetwork
    dsimp only
    split <;> rfl

/-! ## C10 — risk banding and the assessment finding -/

/-- **C10.**  `_getOverallRiskLevel` is total and bands exactly as claimed:
`critical` iff `score ≥ 0.8`, `high` iff `0.6 ≤ score < 0.8`, `medium` iff
`0.4 ≤ score < 0.6`, and `low` iff `score < 0.4`; every
`network_risk_assessment` finding carries this banding of the same
network-risk score whose two-decimal rounding is stored in its details, and
one such finding is always emitted. -/
theorem overall_risk_banding :
    (∀ s : ℚ,
      (overallRiskLevel s = "critical" ↔ 0.8 ≤ s) ∧
      (overallRiskLevel s = "high" ↔ 0.6 ≤ s ∧ s < 0.8) ∧
      (overallRiskLevel s = "medium" ↔ 0.4 ≤ s ∧ s < 0.6) ∧
      (overallRiskLevel s = "low" ↔ s < 0.4)) ∧
    (∀ (env : Env) (st : CoreState),
      ∀ f ∈ generateFindings env st, f.ftype = "network_risk_assessment" →
        f.severity = overallRiskLevel (calculateNetworkRisk env st) ∧
        f.riskScore = some (toFixed2 (calculateNetworkRisk env st))) ∧
    (∀ (env : Env) (st : CoreState),
      ({ ftype := "network_risk_assessment",
         severity := overallRiskLevel (calculateNetworkRisk env st),
         description := "Overall network risk assessment: " ++
           jsToUpper (overallRiskLevel (calculateNetworkRisk env st)),
         riskScore := some (toFixed2 (calculateNetworkRisk env st)) } : Finding) ∈
        generateFindings env st) := by
  refine ⟨?_, ?_, ?_⟩
  · intro s
    unfold overallRiskLevel
    split_ifs with h1 h2 h3
    · exact ⟨⟨fun _ => h1, fun _ => rfl⟩,
        ⟨fun h => absurd h (by decide), fun h => absurd h.2 (not_lt.mpr h1)⟩,
        ⟨fun h => absurd h (by decide), fun h => absurd h.2 (by push_neg; linarith)⟩,
        ⟨fun h => absurd h (by decide), fun h => absurd h (by push_neg; linarith)⟩⟩
    · rw [not_le] at h1
      exact ⟨⟨fun h => absurd h (by decide), fun h => absurd h1 (not_lt.mpr h)⟩,
        ⟨fun _ => ⟨h2, h1⟩, fun _ => rfl⟩,
        ⟨fun h => absurd h (by decide), fun h => absurd h.2 (by push_neg; linarith)⟩,
        ⟨fun h => absurd h (by decide), fun h => absurd h (by push_neg; linarith)⟩⟩
    · rw [not_le] at h1 h2
      exact ⟨⟨fun h => absurd h (by decide), fun h => absurd h1 (not_lt.mpr (by linarith))⟩,
        ⟨fun h => absurd h (by decide), fun h => absurd h2 (not_lt.mpr h.1)⟩,
        ⟨fun _ => ⟨h3, h2⟩, fun _ => rfl⟩,
        ⟨fun h => absurd h (by decide), fun h => absurd h (by push_neg; linarith)⟩⟩
    · rw [not_le] at h1 h2 h3
      exact ⟨⟨fun h => absurd h (by decide), fun h => absurd h1 (not_lt.mpr (by linarith))⟩,
        ⟨fun h => absurd h (by decide), fun h => absurd h2 (not_lt.mpr (by linarith [h.1]))⟩,
        ⟨fun h => absurd h (by decide), fun h => absurd h3 (not_lt.mpr h.1)⟩,
        ⟨fun _ => h3, fun _ => rfl⟩⟩
  · intro env st f hf hty
    unfold generateFindings at hf
    dsimp only at hf
    rcases List.mem_append.mp hf with hf | hf
    · rcases List.mem_append.mp hf with hf | hf
      · rcases List.mem_append.mp hf with hf | hf
        · rcases List.mem_append.mp hf with hf | hf
          · rcases List.mem_append.mp hf with hf | hf
            · rcases List.mem_append.mp hf with hf | hf
              · rcases List.mem_append.mp hf with hf | hf
                · split at hf
                  · rw [List.mem_singleton] at hf
                    subst hf
                    simp at hty
                  · exact absurd hf (List.not_mem_nil f)
                · split at hf
                  · rw [List.mem_singleton] at hf
                    subst hf
                    simp at hty
                  · exact absurd hf (List.not_mem_nil f)
              · split at hf
                · rw [List.mem_singleton] at hf
                  subst hf
                  simp at hty
                · exact absurd hf (List.not_mem_nil f)
            · split at hf
              · rw [List.mem_singleton] at hf
                subst hf
                simp at hty
              · exact absurd hf (List.not_mem_nil f)
          · split at hf
            · rw [List.mem_singleton] at hf
              subst hf
              simp at hty
            · exact absurd hf (List.not_mem_nil f)
        · split at hf
          · rw [List.mem_singleton] at hf
            subst hf
            simp at hty
          · exact absurd hf (List.not_mem_nil f)
      · exact absurd hf (List.not_mem_nil f)
    · rw [List.mem_singleton] at hf
      subst hf
      exact ⟨rfl, rfl⟩
  · intro env st
    unfold generateFindings
    dsimp only
    exact List.mem_append_right _ (List.mem_singleton.mpr rfl)

/-- A fallback finding for `List.headD`. -/
def finding0 : Finding := { ftype := "", severity := "", description := "" }

section
attribute [local semireducible] Rat.add Rat.sub Rat.mul Rat.inv Rat.ofScientific

theorem overall_risk_banding_witness :
    ((generateFindings env0 {}).headD finding0 ∈ generateFindings env0 {} ∧
      ((generateFindings env0 {}).headD finding0).ftype = "network_risk_assessment") ∧
    ((generateFindings env0 {}).headD finding0).severity =
      overallRiskLevel (calculateNetworkRisk env0 {}) ∧
    ((generateFindings env0 {}).headD finding0).riskScore =
      some (toFixed2 (calculateNetworkRisk env0 {})) ∧
    overallRiskLevel (1/2) = "medium" :=
  ⟨⟨by decide, by decide⟩,
   (overall_risk_banding.2.1 env0 {} _ (by decide) (by decide)).1,
   (overall_risk_banding.2.1 env0 {} _ (by decide) (by decide)).2,
   (overall_risk_banding.1 (1/2)).2.2.1.mpr ⟨by norm_num, by norm_num⟩⟩

end

end RugX
